import Mathlib

/-
Verification development for the travel-planner web/mobile clients.

The TypeScript/React sources are shallowly embedded as pure Lean
functions.  JavaScript strings are modelled as Lean `String` (or
`List Char` where character-level regex behaviour matters), JS numbers
holding integral values as `Int`/`Nat`, `null`/`undefined` as `Option`,
and the relevant `fetch` responses as explicit data passed to the
embedded handler, so every handler becomes a pure function from the
previous component state and the received response to the next state
plus a list of externally visible effects.
-/

/-- Message author role, `'user' | 'assistant'` in the sources. -/
inductive Role where
  | user
  | assistant
deriving DecidableEq, Repr

/-- JS `response.ok`: true exactly for 2xx HTTP status codes. -/
def respOk (status : Nat) : Bool := 200 ≤ status && status ≤ 299

/-- JS `String.prototype.trim`: strip leading and trailing
whitespace. -/
def jsTrim (s : String) : String :=
  ⟨((s.data.dropWhile Char.isWhitespace).reverse.dropWhile Char.isWhitespace).reverse⟩

/-- Result of a JS `fetch`: either the promise rejects (network error)
or an HTTP response with a status code and a parsed JSON body. -/
inductive HttpResult (β : Type) where
  | netError (msg : String)
  | resp (status : Nat) (body : β)
deriving DecidableEq, Repr

namespace Profile

/-- JS `Math.round (v / 1000000)` for an integral stored value `v`:
half-up rounding (ties toward positive infinity), which on integers is
floor division of `v + 500000` by `1000000`. -/
def roundDivMillion (v : Int) : Int := (v + 500000) / 1000000

/-- The `convertToMillion` helper of the profile page (duplicated in
`fetchProfile` and `handleCancel`): displays a stored budget value on
the 1..20-million slider.  `null`/`undefined` becomes the default 5;
a value below 1,000,000 is treated as already being in millions and
clamped up to 1; otherwise the value is treated as full VND and
converted with `Math.round`. -/
def convertToMillion (v : Option Int) : Int :=
  match v with
  | none => 5
  | some x => if x < 1000000 then max 1 x else max 1 (roundDivMillion x)

/-- The budget fields sent by the profile page's `handleSave`:
`budgetRange[i] ? budgetRange[i] * 1000000 : null` — a truthy (nonzero)
slider value `m` is sent as `m * 1000000`, a zero value as `null`. -/
def savedBudgetField (m : Int) : Option Int :=
  if m = 0 then none else some (m * 1000000)

/-- The unit-normalization rule exactly as the specification words it:
`max(1, v)` when `v < 1,000,000`, `max(1, round(v / 1,000,000))`
otherwise, and the default 5 for a missing value. -/
def specBudgetDisplay (v : Option Int) : Int :=
  match v with
  | none => 5
  | some x => if x < 1000000 then max 1 x else max 1 ((x + 500000) / 1000000)

end Profile

namespace Save

/-- Visible outcome of a save-itinerary attempt, as the user perceives
it: an "already saved" notice, a success toast/alert, or a failure
toast/alert carrying a human-readable message. -/
inductive SaveOutcome where
  | duplicateNotice
  | success
  | failure (msg : String)
deriving DecidableEq, Repr

/-- Body of a failed save response as read by the web client
(`errorData.detail`, with `null` when the body could not be parsed). -/
structure SaveErrorBody where
  detail : Option String
deriving DecidableEq, Repr

/-- The web `ItineraryPanel.handleSave` response handling: a 409 status
shows the "already saved" info toast and returns; any other non-2xx
status (or a rejected fetch) raises and is reported as a failure toast;
a 2xx response is reported as success. -/
def handleSaveWeb (r : HttpResult SaveErrorBody) : SaveOutcome :=
  match r with
  | .netError m => .failure m
  | .resp status body =>
    if status = 409 then .duplicateNotice
    else if respOk status then .success
    else .failure (body.detail.getD "Không thể lưu lịch trình")

/-- The mobile `useItinerarySave.saveItinerary` response handling,
together with its `savedItineraryIds` bookkeeping: a 409 status alerts
"already saved" and leaves the saved-id set unchanged; a 2xx response
inserts the message index into the saved-id set and alerts success;
anything else alerts a failure and leaves the set unchanged. -/
def saveItineraryMobile (savedIds : List String) (messageIndex : Nat)
    (r : HttpResult Unit) : SaveOutcome × List String :=
  match r with
  | .netError _ => (.failure "Không thể lưu lịch trình. Vui lòng thử lại.", savedIds)
  | .resp status _ =>
    if status = 409 then (.duplicateNotice, savedIds)
    else if respOk status then (.success, savedIds.insert (toString messageIndex))
    else (.failure "Không thể lưu lịch trình. Vui lòng thử lại.", savedIds)

end Save

namespace ChatView

/-- The `listContains` scan underlying JS `String.prototype.includes`:
true iff `pat` occurs as a contiguous substring. -/
def listContains (pat : List Char) : List Char → Bool
  | [] => pat.isEmpty
  | c :: cs => pat.isPrefixOf (c :: cs) || listContains pat cs

/-- JS `s.includes(pat)` on the underlying character sequences. -/
def strIncludes (s pat : String) : Bool := listContains pat.data s.data

/-- JS `content.replace(/\n/g, '<br />')` on the character sequence. -/
def replaceNewlines : List Char → List Char
  | [] => []
  | '\n' :: cs => '<' :: 'b' :: 'r' :: ' ' :: '/' :: '>' :: replaceNewlines cs
  | c :: cs => c :: replaceNewlines cs

/-- The `hasHTML` guard of `ChatMessage`: the message is not from the
user and its content contains one of the four bold markers. -/
def hasHTML (role : Role) (content : String) : Bool :=
  !(role == Role.user) &&
    (strIncludes content "<b>" || strIncludes content "</b>" ||
     strIncludes content "<strong>" || strIncludes content "</strong>")

/-- How a chat bubble's text is emitted into the DOM: either through
`dangerouslySetInnerHTML` (raw HTML markup) or as an escaped text node
of a plain paragraph. -/
inductive Emitted where
  | rawHTML (markup : List Char)
  | plainText (t : String)
deriving DecidableEq, Repr

/-- The body of the `ChatMessage` bubble: the `hasHTML` branch injects
the content with newlines replaced by `<br />`, the other branch
renders the content as plain text. -/
def renderMessageContent (role : Role) (content : String) : Emitted :=
  if hasHTML role content then .rawHTML (replaceNewlines content.data)
  else .plainText content

end ChatView

namespace Itin

/-- An activity of the `ItineraryShape` consumed by the rendering
clients (`Activity` in `ChatMessage.tsx`). -/
structure Activity where
  id : String
  name : String
  icon : String
  time : String
  duration : String
  rating : Option Int := none
  address : Option String := none
  cost : Option String := none
  travelTime : Option String := none
deriving DecidableEq, Repr

/-- One day of an itinerary (`DayItinerary` in `ChatMessage.tsx`). -/
structure DayItinerary where
  day : Int
  date : String
  activities : List Activity
deriving DecidableEq, Repr

/-- Hotel recommendation (`HotelInfo` in `ChatMessage.tsx`). -/
structure HotelInfo where
  name : String
  price : String
  rating : Option Int := none
  image : Option String := none
deriving DecidableEq, Repr

/-- The itinerary payload attached to assistant messages
(`ItineraryData` in `ChatMessage.tsx`). -/
structure ItineraryData where
  destination : String
  duration : String
  budget : String
  days : List DayItinerary
  hotel : Option HotelInfo := none
deriving DecidableEq, Repr

end Itin

namespace Panel

open Itin

/-- Rendering of a single day inside `ItineraryPanel`: a dashed
placeholder card when the day has no activities, otherwise one card
per activity (identified here by the activity names, in order). -/
inductive DayRender where
  | emptyDayPlaceholder (dayIdx : Int)
  | activityCards (dayIdx : Int) (names : List String)
deriving DecidableEq, Repr

/-- Rendering of the whole `ItineraryPanel`. -/
inductive PanelRender where
  | noItineraryPlaceholder
  | noDaysPlaceholder
  | content (days : List DayRender) (hotelName : Option String)
deriving DecidableEq, Repr

/-- One day's block in the panel: `day.activities.length === 0` shows
the "Chưa có hoạt động được lên kế hoạch cho ngày này" placeholder,
otherwise it maps the activities to cards. -/
def renderDay (d : DayItinerary) : DayRender :=
  if d.activities.isEmpty then .emptyDayPlaceholder d.day
  else .activityCards d.day (d.activities.map (fun a => a.name))

/-- The `ItineraryPanel` component body: missing data and an empty (or
missing) `days` list short-circuit to placeholder screens; otherwise
every day is rendered in order and the optional hotel card is added. -/
def renderItineraryPanel (data : Option ItineraryData) : PanelRender :=
  match data with
  | none => .noItineraryPlaceholder
  | some it =>
    if it.days.isEmpty then .noDaysPlaceholder
    else .content (it.days.map renderDay) (it.hotel.map (fun h => h.name))

end Panel

namespace MobileChat

open Itin

/-- A chat message as kept by the mobile `useChatMessages` hook. -/
structure Msg where
  role : Role
  content : String
  timestamp : Option String := none
  itineraryData : Option ItineraryData := none
deriving DecidableEq, Repr

/-- Session state of the mobile chat hook (`messages`,
`conversationId`, `conversationTitle`; the transient typing flag is
not part of the session data). -/
structure State where
  messages : List Msg
  conversationId : Option String
  conversationTitle : String
deriving DecidableEq, Repr

/-- Parsed JSON body of a generate-plan response as the mobile hook
reads it. -/
structure PlanBody where
  ok : Bool := false
  isList : Bool := false
  requiresClarification : Bool := false
  requiresConfirmation : Bool := false
  itinerary : Option ItineraryData := none
  response : Option String := none
  conversationId : Option String := none
deriving DecidableEq, Repr

/-- Externally visible effect of a mobile chat turn. -/
inductive Effect where
  | alertError (title msg : String)
deriving DecidableEq, Repr

/-- JS `message.slice(0, 30) + (message.length > 30 ? '...' : '')`. -/
def truncTitle (message : String) : String :=
  message.take 30 ++ (if message.length > 30 then "..." else "")

/-- The mobile `sendMessage` of `useChatMessages`, as a pure function
of the prior state, the message text, the generate-plan response and a
reload oracle (`reload = some l` means the follow-up `loadMessages`
fetch succeeded with message list `l`; `none` means it failed, in
which case `loadMessages` leaves the list unchanged).  `now` stands
for the formatted current time used for timestamps. -/
def sendMessage (st : State) (message now : String)
    (r : HttpResult PlanBody) (reload : Option (List Msg)) :
    State × List Effect :=
  if jsTrim message = "" then (st, [])
  else
    let st1 : State :=
      { st with messages := st.messages ++ [{ role := .user, content := message, timestamp := some now }] }
    match r with
    | .netError _ =>
      (st1, [.alertError "Lỗi" "Không thể gửi tin nhắn. Vui lòng thử lại."])
    | .resp status data =>
      if !respOk status then
        (st1, [.alertError "Lỗi" "Không thể gửi tin nhắn. Vui lòng thử lại."])
      else
        let st2 : State :=
          match data.conversationId, st.conversationId with
          | some cid, none =>
            { st1 with
              conversationId := some cid
              conversationTitle :=
                match data.itinerary with
                | some it => it.destination
                | none => truncTitle message }
          | _, _ => st1
        if data.ok then
          if data.conversationId.isSome &&
              (data.isList || data.requiresClarification || data.requiresConfirmation) then
            ({ st2 with messages := reload.getD st2.messages }, [])
          else
            match data.itinerary with
            | some it =>
              ({ st2 with messages := st2.messages ++
                  [{ role := .assistant,
                     content := "Tuyệt vời! Mình đã chuẩn bị một lịch trình " ++ it.duration ++
                       " cho " ++ it.destination ++ "!",
                     timestamp := some now,
                     itineraryData := some it }] }, [])
            | none =>
              match data.response with
              | some rtext =>
                ({ st2 with messages := st2.messages ++
                    [{ role := .assistant, content := rtext, timestamp := some now }] }, [])
              | none => (st2, [])
        else
          (st2, [])

end MobileChat

namespace WebChat

open Itin

/-- A chat message as kept by the web `MultiChatInterface`. -/
structure Msg where
  id : String
  role : Role
  content : String
  timestamp : String
  itineraryData : Option ItineraryData := none
deriving DecidableEq, Repr

/-- State of the web chat interface touched by `handleSendMessage`
(the transient typing flag and quick-prompt flag are not modelled). -/
structure State where
  messages : List Msg
  activeConversationId : Option String
  showItinerary : Bool
deriving DecidableEq, Repr

/-- Parsed JSON of a generate-plan response as the web client reads
it.  `detail` is the error payload read on a non-2xx status. -/
structure PlanBody where
  ok : Bool := false
  isList : Bool := false
  requiresClarification : Bool := false
  requiresConfirmation : Bool := false
  itinerary : Option ItineraryData := none
  conversationId : Option String := none
  listMessage : Option String := none
  clarificationMessage : Option String := none
  confirmationMessage : Option String := none
  detail : Option String := none
deriving DecidableEq, Repr

/-- Externally visible effect of a web chat turn. -/
inductive Effect where
  | logout
  | reloadConversations
  | reloadMessages (convId : String)
  | delayedReloadMessages (convId : String)
deriving DecidableEq, Repr

/-- The optimistic user message appended before the request is sent
(its id starts with `temp-` so a later sync can drop it). -/
def mkUserTempMsg (content now : String) : Msg :=
  { id := "temp-" ++ now, role := .user, content := content, timestamp := now }

/-- The error bubble appended by the `catch` branch. -/
def errorReplyMsg (now emsg : String) : Msg :=
  { id := "m-" ++ now, role := .assistant,
    content := "Xin lỗi, đã có lỗi xảy ra: " ++ emsg ++ ". Vui lòng thử lại.",
    timestamp := now }

/-- The assistant bubble carrying a freshly generated itinerary. -/
def itineraryMsg (idPrefix now : String) (it : ItineraryData) : Msg :=
  { id := idPrefix ++ now, role := .assistant,
    content := "Tuyệt vời! Mình đã chuẩn bị một lịch trình " ++ it.duration ++
      " tại " ++ it.destination ++ " với ngân sách " ++ it.budget ++
      " cho bạn. Đây là kế hoạch chi tiết:",
    timestamp := now, itineraryData := some it }

/-- The in-place message update of the ok-itinerary branch: drop the
optimistic `temp-` messages, then overwrite the trailing assistant
message with the itinerary bubble if the list ends with one
(`findIndex` only ever hits the last position), else append it. -/
def applyItineraryUpdate (msgs : List Msg) (itinMsg : Msg) : List Msg :=
  let filtered := msgs.filter (fun m => !(m.id.startsWith "temp-"))
  match filtered.getLast? with
  | some last =>
    if last.role = Role.assistant then filtered.dropLast ++ [itinMsg]
    else filtered ++ [itinMsg]
  | none => [itinMsg]

/-- The web `handleSendMessage`, as a pure function of the prior
state, the input text, the generate-plan response, and a reload oracle
standing for the follow-up `loadMessages` fetch (`some l`: it
succeeded with list `l`; `none`: it failed, leaving messages
unchanged).  `now` stands for the formatted current time used in ids
and timestamps. -/
def handleSendMessage (st : State) (content now : String)
    (r : HttpResult PlanBody) (reload : Option (List Msg)) :
    State × List Effect :=
  if jsTrim content = "" then (st, [])
  else
    let st1 : State := { st with messages := st.messages ++ [mkUserTempMsg content now] }
    match r with
    | .netError m =>
      ({ st1 with messages := st1.messages ++ [errorReplyMsg now m] }, [])
    | .resp status data =>
      if !respOk status then
        if status = 401 then (st1, [.logout])
        else
          ({ st1 with messages := st1.messages ++
              [errorReplyMsg now (data.detail.getD "Đã có lỗi xảy ra")] }, [])
      else
        let convChanged := data.conversationId.isSome &&
          !(data.conversationId == st.activeConversationId)
        let st2 : State :=
          if convChanged then { st1 with activeConversationId := data.conversationId } else st1
        let eff0 : List Effect := if convChanged then [.reloadConversations] else []
        if data.ok && data.isList then
          match data.conversationId with
          | some cid =>
            ({ st2 with messages := reload.getD st2.messages },
             eff0 ++ [.reloadMessages cid, .reloadConversations])
          | none =>
            ({ st2 with messages := st2.messages ++
                [{ id := "m-" ++ now, role := .assistant,
                   content := data.listMessage.getD "Đây là danh sách bạn yêu cầu:",
                   timestamp := now }] }, eff0)
        else if data.ok && data.itinerary.isSome then
          match data.itinerary with
          | some it =>
            match data.conversationId with
            | some cid =>
              ({ st2 with
                  messages := applyItineraryUpdate st2.messages (itineraryMsg "itinerary-" now it)
                  showItinerary := true },
               eff0 ++ [.delayedReloadMessages cid])
            | none =>
              ({ st2 with
                  messages := st2.messages ++ [itineraryMsg "m-" now it]
                  showItinerary := true }, eff0)
          | none => (st2, eff0)
        else if data.ok && (data.requiresClarification || data.requiresConfirmation) then
          match data.conversationId with
          | some cid =>
            ({ st2 with messages := reload.getD st2.messages },
             eff0 ++ [.reloadMessages cid, .reloadConversations])
          | none =>
            ({ st2 with messages := st2.messages ++
                [{ id := "m-" ++ now, role := .assistant,
                   content := ((data.clarificationMessage).orElse
                     (fun _ => data.confirmationMessage)).getD "Vui lòng cung cấp thêm thông tin.",
                   timestamp := now }] }, eff0)
        else
          ({ st2 with messages := st2.messages ++
              [errorReplyMsg now "Không nhận được dữ liệu lịch trình"] }, eff0)

end WebChat

namespace TimeFmt

/-- Numeric value of a decimal digit character (`parseInt` on one digit). -/
def dval (c : Char) : Nat := c.toNat - 48

/-- The characters of the Vietnamese minute unit "phút". -/
def phutChars : List Char := ['p', 'h', 'ú', 't']

/-- The characters of the Vietnamese hour unit "giờ". -/
def gioChars : List Char := ['g', 'i', 'ờ']

/-- Leftmost match of the regex `(\d+)\s*unit` (as used by
`formatDuration` and `extractMinutes` with unit "phút" or "giờ"),
returning the digits captured by group 1.  At each position a maximal
digit run followed by optional whitespace must be followed by the unit
literal; the unit begins with a letter, so the regex engine's
backtracking can never succeed where this maximal munch fails. -/
def scanNumUnit (unit : List Char) : List Char → Option (List Char)
  | [] => none
  | c :: cs =>
    if c.isDigit then
      if unit.isPrefixOf (((c :: cs).dropWhile Char.isDigit).dropWhile Char.isWhitespace) then
        some ((c :: cs).takeWhile Char.isDigit)
      else scanNumUnit unit cs
    else scanNumUnit unit cs

/-- JS `parseInt` on a captured all-digit group. -/
def digitsToNat (l : List Char) : Nat :=
  l.foldl (fun a c => a * 10 + dval c) 0

/-- Decimal digit characters of a natural number, accumulator form;
the first argument is recursion fuel (any amount at least the value
itself is enough, and the printer always passes the value). -/
def natToDigitsCore : Nat → Nat → List Char → List Char
  | 0, _, acc => acc
  | fuel + 1, n, acc =>
    if n = 0 then acc
    else natToDigitsCore fuel (n / 10) (Char.ofNat (48 + n % 10) :: acc)

/-- JS number-to-string for a nonnegative integral value (as produced
by template literals like `` `${minutes} phút` ``). -/
def natToDigits (n : Nat) : List Char :=
  if n = 0 then ['0'] else natToDigitsCore n n []

/-- The minutes-to-text formatting shared by both arms of
`formatDuration`: below one hour "X phút", a whole number of hours
"Y giờ", otherwise "Y giờ Z phút". -/
def fmtMinutes (minutes : Nat) : List Char :=
  if minutes < 60 then natToDigits minutes ++ ' ' :: phutChars
  else
    let hours := minutes / 60
    let rem := minutes % 60
    if rem = 0 then natToDigits hours ++ ' ' :: gioChars
    else natToDigits hours ++ ' ' :: gioChars ++ ' ' :: natToDigits rem ++ ' ' :: phutChars

/-- The saved-itinerary view's `formatDuration`: re-renders a duration
string through its minute value when a "phút" component or a bare
number can be parsed, and otherwise returns the string unchanged. -/
def formatDuration (s : List Char) : List Char :=
  match scanNumUnit phutChars s with
  | some ds => fmtMinutes (digitsToNat ds)
  | none =>
    if (scanNumUnit gioChars s).isSome && (scanNumUnit phutChars s).isSome then s
    else if !s.isEmpty && s.all Char.isDigit then fmtMinutes (digitsToNat s)
    else s

/-- The pre-default total of `extractMinutes`: hours match times 60,
plus minutes match, falling back to a bare all-digit string when both
are absent. -/
def extractTotal (s : List Char) : Nat :=
  let t1 := match scanNumUnit gioChars s with
    | some ds => digitsToNat ds * 60
    | none => 0
  let t2 := t1 + (match scanNumUnit phutChars s with
    | some ds => digitsToNat ds
    | none => 0)
  if (!s.isEmpty && s.all Char.isDigit) && t2 = 0 then digitsToNat s else t2

/-- The saved-itinerary view's `extractMinutes`:
`return totalMinutes || 60`. -/
def extractMinutes (s : List Char) : Nat :=
  if extractTotal s = 0 then 60 else extractTotal s

/-- Attempt of the regex piece `(\d{1,2}):(\d{2})` at the current
position, greedy (two hour digits tried before one); returns the hour
value, minute value and remaining characters. -/
def parseHM2 : List Char → Option (Nat × Nat × List Char)
  | a :: b :: ':' :: c :: d :: rest =>
    if a.isDigit && b.isDigit && c.isDigit && d.isDigit then
      some (10 * dval a + dval b, 10 * dval c + dval d, rest)
    else none
  | _ => none

/-- One-hour-digit variant of `parseHM2`. -/
def parseHM1 : List Char → Option (Nat × Nat × List Char)
  | a :: ':' :: c :: d :: rest =>
    if a.isDigit && c.isDigit && d.isDigit then
      some (dval a, 10 * dval c + dval d, rest)
    else none
  | _ => none

/-- Greedy `(\d{1,2}):(\d{2})` at the current position.  The two
alternatives can never both apply (the second character is a digit in
one and a colon in the other), so this is exactly the regex engine's
backtracking behaviour. -/
def parseHM (l : List Char) : Option (Nat × Nat × List Char) :=
  match parseHM2 l with
  | some r => some r
  | none => parseHM1 l

/-- Leftmost match of `/(\d{1,2}):(\d{2})/` over the whole string. -/
def timeMatch : List Char → Option (Nat × Nat)
  | [] => none
  | c :: cs =>
    match parseHM (c :: cs) with
    | some (h, m, _) => some (h, m)
    | none => timeMatch cs

/-- Attempt of `/(\d{1,2}):(\d{2})\s*[-–]\s*(\d{1,2}):(\d{2})/` at the
current position.  Whitespace is never a dash, so the `\s*` pieces are
deterministic maximal munches. -/
def tryRangeAt (l : List Char) : Option (Nat × Nat × Nat × Nat) :=
  match parseHM l with
  | none => none
  | some (h1, m1, rest) =>
    match rest.dropWhile Char.isWhitespace with
    | [] => none
    | c :: rest2 =>
      if c = '-' || c = '–' then
        match parseHM (rest2.dropWhile Char.isWhitespace) with
        | some (h2, m2, _) => some (h1, m1, h2, m2)
        | none => none
      else none

/-- Leftmost match of the time-range regex over the whole string. -/
def rangeMatch : List Char → Option (Nat × Nat × Nat × Nat)
  | [] => none
  | c :: cs =>
    match tryRangeAt (c :: cs) with
    | some r => some r
    | none => rangeMatch cs

/-- JS `String(n).padStart(2, '0')` for the numbers appearing here. -/
def pad2 (n : Nat) : List Char :=
  if n < 10 then '0' :: natToDigits n else natToDigits n

/-- A formatted `HH:MM` clock string. -/
def hmFormat (h m : Nat) : List Char := pad2 h ++ ':' :: pad2 m

/-- The saved-itinerary view's `calculateDurationFromTimeRange`:
minute difference of the two first time matches, 0 when either string
has no time in it. -/
def calculateDurationFromTimeRange (startTime endTime : List Char) : Int :=
  match timeMatch startTime, timeMatch endTime with
  | some (sh, sm), some (eh, em) =>
    ((eh : Int) * 60 + em) - ((sh : Int) * 60 + sm)
  | _, _ => 0

/-- End-of-activity clock arithmetic with the `while (endMin >= 60)`
normalisation loop followed by the 24-hour clamp to `23:59`. -/
def addMinutesWhile (h m add : Nat) : Nat × Nat :=
  let total := m + add
  let eh := h + total / 60
  let em := total % 60
  if 24 ≤ eh then (23, 59) else (eh, em)

/-- End-of-activity clock arithmetic of the default-duration
sub-branch, which uses a single `if (endMin >= 60)` instead of a
loop, followed by the same 24-hour clamp. -/
def addMinutesOnce (h m add : Nat) : Nat × Nat :=
  let t := m + add
  let p := if 60 ≤ t then (h + 1, t - 60) else (h, t)
  if 24 ≤ p.1 then (23, 59) else p

/-- Result record of `parseTimeRange`. -/
structure TimeRangeResult where
  startTime : List Char
  endTime : List Char
  calculatedDurationMinutes : Int
deriving DecidableEq, Repr

/-- The saved-itinerary view's `parseTimeRange`: an explicit time
range wins; else a single explicit start time (end computed from the
duration, defaulting to one hour); else the duration alone, seeded at
`previousEndTime || dayStartTime`; else `null`. -/
def parseTimeRange (timeStr durationStr previousEndTime : Option (List Char))
    (dayStartTime : List Char) : Option TimeRangeResult :=
  let fromTime : Option TimeRangeResult :=
    match timeStr with
    | none => none
    | some ts =>
      match rangeMatch ts with
      | some (h1, m1, h2, m2) =>
        let s := hmFormat h1 m1
        let e := hmFormat h2 m2
        some ⟨s, e, calculateDurationFromTimeRange s e⟩
      | none =>
        match timeMatch ts with
        | some (h, m) =>
          match durationStr with
          | some ds =>
            let dm := extractMinutes ds
            let p := addMinutesWhile h m dm
            some ⟨hmFormat h m, hmFormat p.1 p.2, (dm : Int)⟩
          | none =>
            let p := addMinutesOnce h m 60
            some ⟨hmFormat h m, hmFormat p.1 p.2, 60⟩
        | none => none
  match fromTime with
  | some r => some r
  | none =>
    match durationStr with
    | some ds =>
      let dm := extractMinutes ds
      let baseTime := previousEndTime.getD dayStartTime
      match timeMatch baseTime with
      | some (h, m) =>
        let p := addMinutesWhile h m dm
        some ⟨baseTime, hmFormat p.1 p.2, (dm : Int)⟩
      | none => none
    | none => none

end TimeFmt

namespace Saved

open TimeFmt

/-- An activity of a saved itinerary as the detail view reads it
(every field may be absent in stored payloads). -/
structure SavedActivity where
  id : Option String := none
  name : String := ""
  icon : Option String := none
  category : Option String := none
  time : Option (List Char) := none
  duration : Option (List Char) := none
  travelTime : Option (List Char) := none
  travelTimeToNext : Option (List Char) := none
deriving DecidableEq, Repr

/-- The canonical day-start clock string `'09:00'`. -/
def dayStart : List Char := ['0', '9', ':', '0', '0']

/-- The travel-time adjustment applied to the recomputed previous end
time inside the activity loop of `SavedItineraryDetail`: when a travel
time is present and the end time parses, add the travel minutes with
the `while` loop and 24-hour clamp; otherwise keep the time as is. -/
def addTravelTime (endT : List Char) (tt : Option (List Char)) : List Char :=
  match tt with
  | none => endT
  | some t =>
    match timeMatch endT with
    | some (h, m) =>
      let p := addMinutesWhile h m (extractMinutes t)
      hmFormat p.1 p.2
    | none => endT

/-- The time range displayed for activity `i` of a day by
`SavedItineraryDetail`: the previous activity's range is recomputed
with a `null` previous end time and `'09:00'` day start, its end is
shifted by the current activity's travel time, and the result seeds
`parseTimeRange` for the current activity. -/
def displayedTimeRange (acts : List SavedActivity) (i : Nat) :
    Option TimeRangeResult :=
  match acts[i]? with
  | none => none
  | some a =>
    let pET : Option (List Char) :=
      if i = 0 then none
      else
        match acts[i - 1]? with
        | none => none
        | some prev =>
          match (parseTimeRange prev.time prev.duration none dayStart).map
              (fun r => r.endTime) with
          | some petime => some (addTravelTime petime a.travelTime)
          | none => none
    parseTimeRange a.time a.duration pET (if i = 0 then dayStart else pET.getD dayStart)

end Saved

namespace Synth

/-- Modelled from the spec: the itinerary synthesizer itself is not
part of the files under version control here (the FastAPI planning
backend is absent; only its callers and the database schema are), so
§4.4's greedy, travel-time-aware day-filling algorithm is modelled
from the specification's words.  A candidate carries a category tag, a
base rating, an estimated visit duration, an estimated travel time
from the previously chosen activity and a cost. -/
structure Candidate where
  name : String
  tag : String
  rating : Int
  durationMin : Nat
  travelMin : Nat
  cost : Int
deriving DecidableEq, Repr

/-- Energy level of the requesting user's profile. -/
inductive EnergyLevel where
  | low
  | medium
  | high
deriving DecidableEq, Repr

/-- Modelled from the spec: per-day activity quota determined by the
energy level (`low` fewer, `high` more). -/
def dayQuota : EnergyLevel → Nat
  | .low => 2
  | .medium => 3
  | .high => 4

/-- Modelled from the spec: preference match of a tag against the
preference vector; unseen tags resolve to a neutral zero. -/
def prefScore (prefs : List (String × Int)) (tag : String) : Int :=
  match prefs.find? (fun p => p.1 = tag) with
  | some p => p.2
  | none => 0

/-- Modelled from the spec: composite candidate score
`w1*rating + w2*preference_match - w3*travel_penalty` with the
unrecoverable weights fixed at 1. -/
def candScore (prefs : List (String × Int)) (c : Candidate) : Int :=
  c.rating + prefScore prefs c.tag - (c.travelMin : Int)

/-- Modelled from the spec: strict preference between candidates —
higher score first, ties broken by higher rating, then by
lexicographically smaller name. -/
def better (prefs : List (String × Int)) (a b : Candidate) : Bool :=
  if candScore prefs a ≠ candScore prefs b then
    decide (candScore prefs b < candScore prefs a)
  else if a.rating ≠ b.rating then decide (b.rating < a.rating)
  else decide (a.name < b.name)

/-- Modelled from the spec: the highest-ranked candidate of a pool
that fits in the remaining minutes of the day, if any. -/
def pickBest (prefs : List (String × Int)) (timeLeft : Nat)
    (pool : List Candidate) : Option Candidate :=
  (pool.filter (fun c => c.durationMin + c.travelMin ≤ timeLeft)).foldl
    (fun best c =>
      match best with
      | none => some c
      | some b => if better prefs c b then some c else some b)
    none

/-- Modelled from the spec: greedy filling of one day — repeatedly
take the best remaining candidate that fits the remaining time, up to
the day quota; an exhausted pool simply stops, leaving the day
partially (or completely) empty. -/
def fillDay (prefs : List (String × Int)) :
    Nat → Nat → List Candidate → List Candidate × List Candidate
  | 0, _, pool => ([], pool)
  | q + 1, timeLeft, pool =>
    match pickBest prefs timeLeft pool with
    | none => ([], pool)
    | some c =>
      let rest := fillDay prefs q (timeLeft - (c.durationMin + c.travelMin)) (pool.erase c)
      (c :: rest.1, rest.2)

/-- Modelled from the spec: one day entry is produced per requested
day, each drawing from whatever pool the previous days left over —
days the pool cannot fill are left with zero activities rather than
being dropped. -/
def synthDays (prefs : List (String × Int)) (energy : EnergyLevel) :
    Nat → List Candidate → List (List Candidate)
  | 0, _ => []
  | k + 1, pool =>
    let day := fillDay prefs (dayQuota energy) 600 pool
    day.1 :: synthDays prefs energy k day.2

/-- A generated itinerary of the modelled synthesizer: the ordered
day entries (each an ordered activity selection). -/
structure GenItinerary where
  days : List (List Candidate)
deriving DecidableEq, Repr

/-- Modelled from the spec: the synthesizer entry point for a request
of `dayCount` days. -/
def synthesize (prefs : List (String × Int)) (energy : EnergyLevel)
    (dayCount : Nat) (pool : List Candidate) : GenItinerary :=
  ⟨synthDays prefs energy dayCount pool⟩

end Synth

/-- The C1 claim exactly as stated: every generate-plan response is
handled by exactly one branch — an ok list response reloads persisted
messages (or appends the list message without a conversation id), an
ok itinerary response appends exactly one itinerary-bearing assistant
message and shows the panel, an ok clarification/confirmation response
reloads persisted messages, and every other response — any ok response
of no known shape and any non-2xx response — appends a single error
message with no other state change. -/
def C1Claim : Prop :=
  ∀ (st : WebChat.State) (content now : String) (r : HttpResult WebChat.PlanBody)
    (reload : Option (List WebChat.Msg)),
    jsTrim content ≠ "" →
    (∀ m, r = .netError m →
      (WebChat.handleSendMessage st content now r reload).1.messages =
        (st.messages ++ [WebChat.mkUserTempMsg content now]) ++ [WebChat.errorReplyMsg now m] ∧
      (WebChat.handleSendMessage st content now r reload).1.activeConversationId =
        st.activeConversationId ∧
      (WebChat.handleSendMessage st content now r reload).1.showItinerary = st.showItinerary) ∧
    (∀ status data, r = .resp status data → respOk status = false →
      (WebChat.handleSendMessage st content now r reload).1.messages =
        (st.messages ++ [WebChat.mkUserTempMsg content now]) ++
          [WebChat.errorReplyMsg now (data.detail.getD "Đã có lỗi xảy ra")] ∧
      (WebChat.handleSendMessage st content now r reload).1.activeConversationId =
        st.activeConversationId ∧
      (WebChat.handleSendMessage st content now r reload).1.showItinerary = st.showItinerary) ∧
    (∀ status data cid l, r = .resp status data → respOk status = true →
      data.ok = true → data.isList = true → data.conversationId = some cid →
      reload = some l →
      (WebChat.handleSendMessage st content now r reload).1.messages = l) ∧
    (∀ status data it, r = .resp status data → respOk status = true →
      data.ok = true → data.isList = false → data.itinerary = some it →
      (∃ msg : WebChat.Msg, msg.role = .assistant ∧ msg.itineraryData = some it ∧
        (WebChat.handleSendMessage st content now r reload).1.messages =
          (st.messages ++ [WebChat.mkUserTempMsg content now]) ++ [msg]) ∧
      (WebChat.handleSendMessage st content now r reload).1.showItinerary = true) ∧
    (∀ status data cid l, r = .resp status data → respOk status = true →
      data.ok = true → data.isList = false → data.itinerary = none →
      (data.requiresClarification = true ∨ data.requiresConfirmation = true) →
      data.conversationId = some cid → reload = some l →
      (WebChat.handleSendMessage st content now r reload).1.messages = l) ∧
    (∀ status data, r = .resp status data → respOk status = true →
      data.ok = true → data.isList = false → data.itinerary = none →
      data.requiresClarification = false → data.requiresConfirmation = false →
      (WebChat.handleSendMessage st content now r reload).1.messages =
        (st.messages ++ [WebChat.mkUserTempMsg content now]) ++
          [WebChat.errorReplyMsg now "Không nhận được dữ liệu lịch trình"]) ∧
    (∀ status data, r = .resp status data → respOk status = true → data.ok = false →
      (WebChat.handleSendMessage st content now r reload).1.messages =
        (st.messages ++ [WebChat.mkUserTempMsg content now]) ++
          [WebChat.errorReplyMsg now "Không nhận được dữ liệu lịch trình"])

/-- The C4 claim exactly as stated: in the saved-itinerary day view,
an activity with no explicit time string is displayed starting at the
previous activity's (displayed) end time plus the activity's travel
time, the first activity of a day is seeded at 09:00, and an explicit
time string wins over the computation. -/
def C4Claim : Prop :=
  (∀ (acts : List Saved.SavedActivity) (a : Saved.SavedActivity) (d : List Char),
    acts[0]? = some a → a.time = none → a.duration = some d →
    ∃ r, Saved.displayedTimeRange acts 0 = some r ∧ r.startTime = Saved.dayStart) ∧
  (∀ (acts : List Saved.SavedActivity) (i : Nat) (a : Saved.SavedActivity)
     (d : List Char) (rprev : TimeFmt.TimeRangeResult),
    acts[i]? = some a → 1 ≤ i → a.time = none → a.duration = some d →
    Saved.displayedTimeRange acts (i - 1) = some rprev →
    ∃ r, Saved.displayedTimeRange acts i = some r ∧
      r.startTime = Saved.addTravelTime rprev.endTime a.travelTime) ∧
  (∀ (acts : List Saved.SavedActivity) (i : Nat) (a : Saved.SavedActivity)
     (ts : List Char) (h1 m1 h2 m2 : Nat),
    acts[i]? = some a → a.time = some ts → TimeFmt.rangeMatch ts = some (h1, m1, h2, m2) →
    ∃ r, Saved.displayedTimeRange acts i = some r ∧ r.startTime = TimeFmt.hmFormat h1 m1)

/-- The three-activity day refuting the middle clause of `C4Claim`:
three activities with no explicit times, one-hour durations and
ten-minute travel times. -/
def chainActs : List Saved.SavedActivity :=
  [{ duration := some ('6' :: '0' :: ' ' :: TimeFmt.phutChars) },
   { duration := some ('6' :: '0' :: ' ' :: TimeFmt.phutChars),
     travelTime := some ('1' :: '0' :: ' ' :: TimeFmt.phutChars) },
   { duration := some ('6' :: '0' :: ' ' :: TimeFmt.phutChars),
     travelTime := some ('1' :: '0' :: ' ' :: TimeFmt.phutChars) }]

/-- C3: the presentation-layer budget normalization is exactly the
threshold rule of the spec — below one million the stored value is
taken as already being in millions (clamped up to 1), otherwise it is
`Math.round`-converted from VND, a missing value displays as 5, and a
slider value of `m` million is sent to the backend as `m * 1000000`. -/
theorem c3_budget_unit_rule :
    (∀ v : Option Int, Profile.convertToMillion v = Profile.specBudgetDisplay v) ∧
    (∀ m : Int, 1 ≤ m → Profile.savedBudgetField m = some (m * 1000000)) := by
  constructor
  · intro v
    cases v <;> rfl
  · intro m hm
    unfold Profile.savedBudgetField
    rw [if_neg (by omega)]

/-- Witness for `c3_budget_unit_rule` at slider value 7. -/
theorem c3_budget_unit_rule_witness :
    (1 : Int) ≤ 7 ∧ Profile.savedBudgetField 7 = some (7 * 1000000) :=
  ⟨by norm_num, c3_budget_unit_rule.2 7 (by norm_num)⟩

/-- C9: saving then re-displaying a budget is the identity on the
slider domain — `m * 1000000` is sent and converted back to exactly
`m` — while stored values below one million are read back unchanged
except for the clamp up to 1. -/
theorem c9_budget_roundtrip :
    (∀ m : Int, 1 ≤ m → m < 1000000 →
      Profile.convertToMillion (Profile.savedBudgetField m) = m) ∧
    (∀ v : Int, v < 1000000 → Profile.convertToMillion (some v) = max 1 v) := by
  constructor
  · intro m hm _
    have h1 : Profile.savedBudgetField m = some (m * 1000000) := by
      unfold Profile.savedBudgetField
      rw [if_neg (by omega)]
    rw [h1]
    show (if m * 1000000 < 1000000 then max 1 (m * 1000000)
      else max 1 (Profile.roundDivMillion (m * 1000000))) = m
    rw [if_neg (by omega)]
    unfold Profile.roundDivMillion
    have hdiv : (m * 1000000 + 500000) / 1000000 = m := by omega
    rw [hdiv, max_eq_right hm]
  · intro v hv
    show (if v < 1000000 then max 1 v else max 1 (Profile.roundDivMillion v)) = max 1 v
    rw [if_pos hv]

/-- Witness for `c9_budget_roundtrip` at slider value 7. -/
theorem c9_budget_roundtrip_witness :
    (1 : Int) ≤ 7 ∧ (7 : Int) < 1000000 ∧
      Profile.convertToMillion (Profile.savedBudgetField 7) = 7 :=
  ⟨by norm_num, by norm_num, c9_budget_roundtrip.1 7 (by norm_num) (by norm_num)⟩

/-- C2: a 409 duplicate on save is surfaced as the distinct
"already saved" notice in both clients — not as a success and not as
a failure, and without marking the itinerary as newly saved — while a
2xx response is the only success and every other status is reported
as a failure. -/
theorem c2_duplicate_save_distinct :
    (∀ body, Save.handleSaveWeb (.resp 409 body) = .duplicateNotice) ∧
    (∀ status body, respOk status = true →
      Save.handleSaveWeb (.resp status body) = .success) ∧
    (∀ status body, respOk status = false → status ≠ 409 →
      Save.handleSaveWeb (.resp status body) =
        .failure (body.detail.getD "Không thể lưu lịch trình")) ∧
    (∀ msg, Save.handleSaveWeb (.netError msg) = .failure msg) ∧
    (∀ ids idx, Save.saveItineraryMobile ids idx (.resp 409 ()) = (.duplicateNotice, ids)) ∧
    (∀ ids idx status, respOk status = true →
      Save.saveItineraryMobile ids idx (.resp status ()) =
        (.success, ids.insert (toString idx))) ∧
    (∀ ids idx status, respOk status = false → status ≠ 409 →
      Save.saveItineraryMobile ids idx (.resp status ()) =
        (.failure "Không thể lưu lịch trình. Vui lòng thử lại.", ids)) := by
  refine ⟨fun body => rfl, ?_, ?_, fun msg => rfl, fun ids idx => rfl, ?_, ?_⟩
  · intro status body h
    have h409 : status ≠ 409 := by
      simp only [respOk, Bool.and_eq_true, decide_eq_true_eq] at h
      omega
    simp [Save.handleSaveWeb, h409, h]
  · intro status body h h409
    simp [Save.handleSaveWeb, h409, h]
  · intro ids idx status h
    have h409 : status ≠ 409 := by
      simp only [respOk, Bool.and_eq_true, decide_eq_true_eq] at h
      omega
    simp [Save.saveItineraryMobile, h409, h]
  · intro ids idx status h h409
    simp [Save.saveItineraryMobile, h409, h]

/-- Witness for `c2_duplicate_save_distinct`: a 200 response on the
mobile client is the success case and records the message index. -/
theorem c2_duplicate_save_distinct_witness :
    respOk 200 = true ∧
      Save.saveItineraryMobile [] 3 (.resp 200 ()) =
        (.success, ([] : List String).insert (toString 3)) :=
  ⟨by decide, c2_duplicate_save_distinct.2.2.2.2.2.1 [] 3 200 (by decide)⟩

/-- C8: a user message is always emitted as escaped plain text — the
`dangerouslySetInnerHTML` branch is unreachable for it — and the raw
HTML injection happens exactly for assistant messages containing one
of the four bold markers, with newlines replaced by `<br />`. -/
theorem c8_user_messages_never_raw_html :
    (∀ content, ChatView.renderMessageContent Role.user content =
      .plainText content) ∧
    (∀ role content, ChatView.hasHTML role content = true → role = Role.assistant) ∧
    (∀ content, ChatView.hasHTML Role.assistant content = true →
      ChatView.renderMessageContent Role.assistant content =
        .rawHTML (ChatView.replaceNewlines content.data)) ∧
    (∀ content, ChatView.hasHTML Role.assistant content = false →
      ChatView.renderMessageContent Role.assistant content = .plainText content) ∧
    (∀ content, ChatView.hasHTML Role.assistant content =
      (ChatView.strIncludes content "<b>" || ChatView.strIncludes content "</b>" ||
       ChatView.strIncludes content "<strong>" || ChatView.strIncludes content "</strong>")) := by
  refine ⟨?_, ?_, ?_, ?_, ?_⟩
  · intro content
    simp [ChatView.renderMessageContent, ChatView.hasHTML]
  · intro role content h
    cases role
    · simp [ChatView.hasHTML] at h
    · rfl
  · intro content h
    simp [ChatView.renderMessageContent, h]
  · intro content h
    simp [ChatView.renderMessageContent, h]
  · intro content
    simp [ChatView.hasHTML]

/-- Witness for `c8_user_messages_never_raw_html`: an assistant
message with a `<b>` marker is injected as raw HTML. -/
theorem c8_user_messages_never_raw_html_witness :
    ChatView.hasHTML Role.assistant "<b>Ngày 1</b>\nĂn sáng" = true ∧
      ChatView.renderMessageContent Role.assistant "<b>Ngày 1</b>\nĂn sáng" =
        .rawHTML (ChatView.replaceNewlines ("<b>Ngày 1</b>\nĂn sáng").data) :=
  ⟨by decide, c8_user_messages_never_raw_html.2.2.1 "<b>Ngày 1</b>\nĂn sáng" (by decide)⟩

/-- C5: a day with zero activities renders as the dashed placeholder
card while every other day renders its activity cards, the itinerary
as a whole still renders (day blocks are a total map over the days),
and an itinerary with no days at all renders the no-days placeholder
screen instead of failing. -/
theorem c5_empty_day_renders_placeholder :
    (∀ d : Itin.DayItinerary, d.activities = [] →
      Panel.renderDay d = .emptyDayPlaceholder d.day) ∧
    (∀ d : Itin.DayItinerary, d.activities ≠ [] →
      Panel.renderDay d = .activityCards d.day (d.activities.map (fun a => a.name))) ∧
    (∀ it : Itin.ItineraryData, it.days ≠ [] →
      Panel.renderItineraryPanel (some it) =
        .content (it.days.map Panel.renderDay) (it.hotel.map (fun h => h.name))) ∧
    (∀ it : Itin.ItineraryData, it.days = [] →
      Panel.renderItineraryPanel (some it) = .noDaysPlaceholder) ∧
    Panel.renderItineraryPanel none = .noItineraryPlaceholder := by
  refine ⟨?_, ?_, ?_, ?_, rfl⟩
  · intro d h
    simp [Panel.renderDay, h]
  · intro d h
    simp [Panel.renderDay, h]
  · intro it h
    simp [Panel.renderItineraryPanel, h]
  · intro it h
    simp [Panel.renderItineraryPanel, h]

/-- Witness for `c5_empty_day_renders_placeholder`: a two-day
itinerary whose first day is empty renders the placeholder for day 1
and the activity card for day 2. -/
theorem c5_empty_day_renders_placeholder_witness :
    (⟨1, "1/1", []⟩ : Itin.DayItinerary).activities = [] ∧
      Panel.renderDay ⟨1, "1/1", []⟩ = .emptyDayPlaceholder 1 :=
  ⟨rfl, c5_empty_day_renders_placeholder.1 ⟨1, "1/1", []⟩ rfl⟩

/-- C6: a failed generate-plan call on mobile (non-2xx status or
network error) surfaces the human-readable alert and leaves the
session exactly as it was apart from the already-appended user
message: same conversation id, same title, same prior messages, and
no assistant message. -/
theorem c6_failed_turn_preserves_session :
    ∀ (st : MobileChat.State) (message now : String)
      (r : HttpResult MobileChat.PlanBody) (reload : Option (List MobileChat.Msg)),
      jsTrim message ≠ "" →
      ((∃ m, r = .netError m) ∨
        (∃ status data, r = .resp status data ∧ respOk status = false)) →
      MobileChat.sendMessage st message now r reload =
        ({ st with messages := st.messages ++
            [{ role := .user, content := message, timestamp := some now }] },
         [.alertError "Lỗi" "Không thể gửi tin nhắn. Vui lòng thử lại."]) := by
  intro st message now r reload htrim hfail
  unfold MobileChat.sendMessage
  rw [if_neg htrim]
  rcases hfail with ⟨m, rfl⟩ | ⟨status, data, rfl, hstatus⟩
  · rfl
  · simp [hstatus]

/-- Witness for `c6_failed_turn_preserves_session`: a 500 response
leaves an empty session with only the user's message and the alert. -/
theorem c6_failed_turn_preserves_session_witness :
    jsTrim "xin chào" ≠ "" ∧
      MobileChat.sendMessage ⟨[], none, ""⟩ "xin chào" "10:00"
          (.resp 500 {}) none =
        ({ messages := [{ role := .user, content := "xin chào", timestamp := some "10:00" }],
           conversationId := none, conversationTitle := "" },
         [.alertError "Lỗi" "Không thể gửi tin nhắn. Vui lòng thử lại."]) :=
  ⟨by decide,
   c6_failed_turn_preserves_session ⟨[], none, ""⟩ "xin chào" "10:00"
     (.resp 500 {}) none (by decide) (Or.inr ⟨500, {}, rfl, by decide⟩)⟩

/-- C7 (spec-modelled): the synthesizer always produces exactly the
requested number of day entries — unfillable days are emitted empty
rather than dropped. -/
theorem c7_generated_day_count :
    ∀ (prefs : List (String × Int)) (energy : Synth.EnergyLevel)
      (dayCount : Nat) (pool : List Synth.Candidate),
      (Synth.synthesize prefs energy dayCount pool).days.length = dayCount := by
  intro prefs energy dayCount
  unfold Synth.synthesize
  induction dayCount with
  | zero => intro pool; rfl
  | succ k ih =>
    intro pool
    simp only [Synth.synthDays, List.length_cons]
    rw [ih]

/-- C1 fails as stated: a 401 response is a non-2xx response, yet the
handler logs the user out and appends no error message at all (the
message list still ends with the optimistic user message only). -/
theorem c1_counterexample : ¬ C1Claim := by
  intro h
  have h2 := (h ⟨[], none, false⟩ "hi" "t" (.resp 401 {}) none (by decide)).2.1
    401 {} rfl (by decide)
  exact absurd h2.1 (by decide)

/-- C1 amended: exactly one branch fires for every response, with two
corrections to the claim — a 401 response triggers a logout with no
appended error message (only other non-2xx responses append the single
error bubble), and in the ok-itinerary case with a conversation id the
assistant bubble is inserted by `applyItineraryUpdate`, which appends
it only when the temp-filtered list does not already end with an
assistant message and otherwise replaces that trailing assistant
message.  All other branches behave as claimed: ok list and
clarification/confirmation responses reload persisted messages
(falling back to a locally appended message without a conversation
id), the ok-itinerary case shows the panel, and any ok response of no
known shape appends the single error bubble. -/
theorem c1_amended :
    ∀ (st : WebChat.State) (content now : String) (r : HttpResult WebChat.PlanBody)
      (reload : Option (List WebChat.Msg)),
      jsTrim content ≠ "" →
      (∀ m, r = .netError m →
        WebChat.handleSendMessage st content now r reload =
          (⟨(st.messages ++ [WebChat.mkUserTempMsg content now]) ++ [WebChat.errorReplyMsg now m],
            st.activeConversationId, st.showItinerary⟩, [])) ∧
      (∀ data, r = .resp 401 data →
        WebChat.handleSendMessage st content now r reload =
          (⟨st.messages ++ [WebChat.mkUserTempMsg content now],
            st.activeConversationId, st.showItinerary⟩, [.logout])) ∧
      (∀ status data, r = .resp status data → respOk status = false → status ≠ 401 →
        WebChat.handleSendMessage st content now r reload =
          (⟨(st.messages ++ [WebChat.mkUserTempMsg content now]) ++
              [WebChat.errorReplyMsg now (data.detail.getD "Đã có lỗi xảy ra")],
            st.activeConversationId, st.showItinerary⟩, [])) ∧
      (∀ status data cid l, r = .resp status data → respOk status = true →
        data.ok = true → data.isList = true → data.conversationId = some cid →
        reload = some l →
        (WebChat.handleSendMessage st content now r reload).1 =
          ⟨l, some cid, st.showItinerary⟩) ∧
      (∀ status data, r = .resp status data → respOk status = true →
        data.ok = true → data.isList = true → data.conversationId = none →
        WebChat.handleSendMessage st content now r reload =
          (⟨(st.messages ++ [WebChat.mkUserTempMsg content now]) ++
              [{ id := "m-" ++ now, role := .assistant,
                 content := data.listMessage.getD "Đây là danh sách bạn yêu cầu:",
                 timestamp := now }],
            st.activeConversationId, st.showItinerary⟩, [])) ∧
      (∀ status data it cid, r = .resp status data → respOk status = true →
        data.ok = true → data.isList = false → data.itinerary = some it →
        data.conversationId = some cid →
        (WebChat.handleSendMessage st content now r reload).1 =
          ⟨WebChat.applyItineraryUpdate (st.messages ++ [WebChat.mkUserTempMsg content now])
              (WebChat.itineraryMsg "itinerary-" now it),
            some cid, true⟩) ∧
      (∀ status data it, r = .resp status data → respOk status = true →
        data.ok = true → data.isList = false → data.itinerary = some it →
        data.conversationId = none →
        WebChat.handleSendMessage st content now r reload =
          (⟨(st.messages ++ [WebChat.mkUserTempMsg content now]) ++
              [WebChat.itineraryMsg "m-" now it],
            st.activeConversationId, true⟩, [])) ∧
      (∀ status data cid l, r = .resp status data → respOk status = true →
        data.ok = true → data.isList = false → data.itinerary = none →
        (data.requiresClarification = true ∨ data.requiresConfirmation = true) →
        data.conversationId = some cid → reload = some l →
        (WebChat.handleSendMessage st content now r reload).1 =
          ⟨l, some cid, st.showItinerary⟩) ∧
      (∀ status data, r = .resp status data → respOk status = true →
        data.ok = true → data.isList = false → data.itinerary = none →
        (data.requiresClarification = true ∨ data.requiresConfirmation = true) →
        data.conversationId = none →
        WebChat.handleSendMessage st content now r reload =
          (⟨(st.messages ++ [WebChat.mkUserTempMsg content now]) ++
              [{ id := "m-" ++ now, role := .assistant,
                 content := ((data.clarificationMessage).orElse
                   (fun _ => data.confirmationMessage)).getD "Vui lòng cung cấp thêm thông tin.",
                 timestamp := now }],
            st.activeConversationId, st.showItinerary⟩, [])) ∧
      (∀ status data, r = .resp status data → respOk status = true →
        (data.ok = false ∨ (data.ok = true ∧ data.isList = false ∧ data.itinerary = none ∧
          data.requiresClarification = false ∧ data.requiresConfirmation = false)) →
        (WebChat.handleSendMessage st content now r reload).1.messages =
          (st.messages ++ [WebChat.mkUserTempMsg content now]) ++
            [WebChat.errorReplyMsg now "Không nhận được dữ liệu lịch trình"] ∧
        (WebChat.handleSendMessage st content now r reload).1.showItinerary =
          st.showItinerary) ∧
      (∀ (msgs : List WebChat.Msg) (imsg last : WebChat.Msg),
        (msgs.filter (fun m => !(m.id.startsWith "temp-"))).getLast? = some last →
        last.role ≠ .assistant →
        WebChat.applyItineraryUpdate msgs imsg =
          msgs.filter (fun m => !(m.id.startsWith "temp-")) ++ [imsg]) ∧
      (∀ (msgs : List WebChat.Msg) (imsg last : WebChat.Msg),
        (msgs.filter (fun m => !(m.id.startsWith "temp-"))).getLast? = some last →
        last.role = .assistant →
        WebChat.applyItineraryUpdate msgs imsg =
          (msgs.filter (fun m => !(m.id.startsWith "temp-"))).dropLast ++ [imsg]) := by
  intro st content now r reload htrim
  refine ⟨?_, ?_, ?_, ?_, ?_, ?_, ?_, ?_, ?_, ?_, ?_, ?_⟩
  · rintro m rfl
    simp [WebChat.handleSendMessage, htrim]
  · rintro data rfl
    simp [WebChat.handleSendMessage, htrim, respOk]
  · rintro status data rfl hbad h401
    simp [WebChat.handleSendMessage, htrim, hbad, h401]
  · rintro status data cid l rfl hok2 hok hlist hcid rfl
    by_cases hc : some cid = st.activeConversationId
    · simp [WebChat.handleSendMessage, htrim, hok2, hok, hlist, hcid, hc]
      rw [← hc]
    · simp [WebChat.handleSendMessage, htrim, hok2, hok, hlist, hcid, hc]
  · rintro status data rfl hok2 hok hlist hcid
    simp [WebChat.handleSendMessage, htrim, hok2, hok, hlist, hcid]
  · rintro status data it cid rfl hok2 hok hlist hit hcid
    by_cases hc : some cid = st.activeConversationId
    · simp [WebChat.handleSendMessage, htrim, hok2, hok, hlist, hit, hcid, hc]
      rw [← hc]
    · simp [WebChat.handleSendMessage, htrim, hok2, hok, hlist, hit, hcid, hc]
  · rintro status data it rfl hok2 hok hlist hit hcid
    simp [WebChat.handleSendMessage, htrim, hok2, hok, hlist, hit, hcid]
  · rintro status data cid l rfl hok2 hok hlist hit hcc hcid rfl
    rcases hcc with hcc | hcc <;>
      by_cases hc : some cid = st.activeConversationId <;>
        [skip; skip; skip; skip] <;>
      first
      | (simp [WebChat.handleSendMessage, htrim, hok2, hok, hlist, hit, hcc, hcid, hc]
         rw [← hc])
      | simp [WebChat.handleSendMessage, htrim, hok2, hok, hlist, hit, hcc, hcid, hc]
  · rintro status data rfl hok2 hok hlist hit hcc hcid
    rcases hcc with hcc | hcc <;>
      simp [WebChat.handleSendMessage, htrim, hok2, hok, hlist, hit, hcc, hcid]
  · rintro status data rfl hok2 hcase
    rcases hcase with hok | ⟨hok, hlist, hit, hc1, hc2⟩
    · by_cases hc : data.conversationId.isSome &&
          !(data.conversationId == st.activeConversationId) <;>
        simp [WebChat.handleSendMessage, htrim, hok2, hok, hc]
    · by_cases hc : data.conversationId.isSome &&
          !(data.conversationId == st.activeConversationId) <;>
        simp [WebChat.handleSendMessage, htrim, hok2, hok, hlist, hit, hc1, hc2, hc]
  · intro msgs imsg last hlast hrole
    simp [WebChat.applyItineraryUpdate, hlast, hrole]
  · intro msgs imsg last hlast hrole
    simp [WebChat.applyItineraryUpdate, hlast, hrole]

/-- Witness for `c1_amended`: a concrete ok-list response with a
conversation id reloads the persisted messages. -/
theorem c1_amended_witness :
    jsTrim "quán cà phê ở Đà Lạt" ≠ "" ∧
      (WebChat.handleSendMessage ⟨[], none, false⟩ "quán cà phê ở Đà Lạt" "t"
          (.resp 200 { ok := true, isList := true, conversationId := some "c1" })
          (some [])).1 =
        ⟨[], some "c1", false⟩ :=
  ⟨by decide,
   (c1_amended ⟨[], none, false⟩ "quán cà phê ở Đà Lạt" "t"
       (.resp 200 { ok := true, isList := true, conversationId := some "c1" })
       (some []) (by decide)).2.2.2.1 200
     { ok := true, isList := true, conversationId := some "c1" } "c1" [] rfl
     (by decide) rfl rfl rfl rfl⟩

namespace TimeFmt

/-- Characters `'0'`..`'9'` are the digit characters. -/
theorem digit_char_isDigit {d : Nat} (hd : d < 10) :
    (Char.ofNat (48 + d)).isDigit = true := by
  interval_cases d <;> decide

/-- Digit value of the character of a digit. -/
theorem digit_char_dval {d : Nat} (hd : d < 10) :
    dval (Char.ofNat (48 + d)) = d := by
  interval_cases d <;> decide

/-- A digit character's value is below ten. -/
theorem dval_lt_ten {c : Char} (h : c.isDigit = true) : dval c < 10 := by
  unfold Char.isDigit at h
  simp only [Bool.and_eq_true, decide_eq_true_eq] at h
  obtain ⟨h1, h2⟩ := h
  have n2 : c.val.toNat ≤ 57 := h2
  unfold dval Char.toNat
  omega

/-- Fuel exhaustion or value zero: the printer core emits nothing. -/
theorem natToDigitsCore_zero (fuel : Nat) (acc : List Char) :
    natToDigitsCore fuel 0 acc = acc := by
  cases fuel <;> simp [natToDigitsCore]

/-- Accumulator lemma for the digit printer. -/
theorem natToDigitsCore_append :
    ∀ (fuel n : Nat) (acc : List Char), n ≤ fuel →
      natToDigitsCore fuel n acc = natToDigitsCore fuel n [] ++ acc := by
  intro fuel
  induction fuel with
  | zero =>
    intro n acc _
    simp [natToDigitsCore]
  | succ f ih =>
    intro n acc h
    by_cases hn : n = 0
    · subst hn
      simp [natToDigitsCore]
    · have hdiv : n / 10 ≤ f := by
        have := Nat.div_lt_self (Nat.pos_of_ne_zero hn) (show 1 < 10 by norm_num)
        omega
      simp only [natToDigitsCore, if_neg hn]
      rw [ih (n / 10) _ hdiv, ih (n / 10) [Char.ofNat (48 + n % 10)] hdiv]
      simp

/-- Every character the digit printer emits is a digit. -/
theorem natToDigitsCore_all_digit :
    ∀ (fuel n : Nat), n ≤ fuel → ∀ c ∈ natToDigitsCore fuel n [], c.isDigit = true := by
  intro fuel
  induction fuel with
  | zero =>
    intro n _ c hc
    simp [natToDigitsCore] at hc
  | succ f ih =>
    intro n h c hc
    by_cases hn : n = 0
    · subst hn
      simp [natToDigitsCore] at hc
    · have hdiv : n / 10 ≤ f := by
        have := Nat.div_lt_self (Nat.pos_of_ne_zero hn) (show 1 < 10 by norm_num)
        omega
      simp only [natToDigitsCore, if_neg hn] at hc
      rw [natToDigitsCore_append f (n / 10) _ hdiv] at hc
      rcases List.mem_append.1 hc with hmem | hmem
      · exact ih (n / 10) hdiv c hmem
      · simp at hmem
        subst hmem
        exact digit_char_isDigit (Nat.mod_lt n (by norm_num))

/-- Folding the digit-value step over an appended digit. -/
theorem digitsToNat_append_singleton (l : List Char) (c : Char) :
    digitsToNat (l ++ [c]) = digitsToNat l * 10 + dval c := by
  simp [digitsToNat, List.foldl_append]

/-- The digit printer and `parseInt` are mutually inverse. -/
theorem natToDigitsCore_val :
    ∀ (fuel n : Nat), n ≤ fuel → digitsToNat (natToDigitsCore fuel n []) = n := by
  intro fuel
  induction fuel with
  | zero =>
    intro n h
    have hn : n = 0 := by omega
    subst hn
    simp [natToDigitsCore, digitsToNat]
  | succ f ih =>
    intro n h
    by_cases hn : n = 0
    · subst hn
      simp [natToDigitsCore, digitsToNat]
    · have hdiv : n / 10 ≤ f := by
        have := Nat.div_lt_self (Nat.pos_of_ne_zero hn) (show 1 < 10 by norm_num)
        omega
      simp only [natToDigitsCore, if_neg hn]
      rw [natToDigitsCore_append f (n / 10) _ hdiv, digitsToNat_append_singleton,
        ih (n / 10) hdiv, digit_char_dval (Nat.mod_lt n (by norm_num))]
      omega

/-- The printed form of any natural number is all digits. -/
theorem natToDigits_all_digit (n : Nat) :
    ∀ c ∈ natToDigits n, c.isDigit = true := by
  intro c hc
  unfold natToDigits at hc
  by_cases h : n = 0
  · simp [h] at hc
    subst hc
    decide
  · rw [if_neg h] at hc
    exact natToDigitsCore_all_digit n n (le_refl n) c hc

/-- Parsing back the printed form of any natural number. -/
theorem natToDigits_val (n : Nat) : digitsToNat (natToDigits n) = n := by
  unfold natToDigits
  by_cases h : n = 0
  · subst h
    decide
  · rw [if_neg h]
    exact natToDigitsCore_val n n (le_refl n)

/-- The printed form of any natural number is nonempty. -/
theorem natToDigits_ne_nil (n : Nat) : natToDigits n ≠ [] := by
  unfold natToDigits
  by_cases h : n = 0
  · simp [h]
  · rw [if_neg h]
    cases n with
    | zero => exact absurd rfl h
    | succ m =>
      have hdiv : (m + 1) / 10 ≤ m := by
        have := Nat.div_lt_self (show 0 < m + 1 by omega) (show 1 < 10 by norm_num)
        omega
      simp only [natToDigitsCore, if_neg h]
      rw [natToDigitsCore_append m ((m + 1) / 10) _ hdiv]
      simp

/-- Take-while runs through a satisfying block and stops at the first
failing character. -/
theorem takeWhile_append_stop (p : Char → Bool) (xs : List Char) (y : Char)
    (ys : List Char) (hxs : ∀ c ∈ xs, p c = true) (hy : p y = false) :
    (xs ++ y :: ys).takeWhile p = xs := by
  induction xs with
  | nil => simp [List.takeWhile_cons, hy]
  | cons x xs ih =>
    have hx : p x = true := hxs x (List.mem_cons_self x xs)
    have ih2 := ih (fun c hc => hxs c (List.mem_cons_of_mem x hc))
    simp [List.takeWhile_cons, hx, ih2]

/-- Drop-while runs through a satisfying block and stops at the first
failing character. -/
theorem dropWhile_append_stop (p : Char → Bool) (xs : List Char) (y : Char)
    (ys : List Char) (hxs : ∀ c ∈ xs, p c = true) (hy : p y = false) :
    (xs ++ y :: ys).dropWhile p = y :: ys := by
  induction xs with
  | nil => simp [List.dropWhile_cons, hy]
  | cons x xs ih =>
    have hx : p x = true := hxs x (List.mem_cons_self x xs)
    have ih2 := ih (fun c hc => hxs c (List.mem_cons_of_mem x hc))
    simp [List.dropWhile_cons, hx, ih2]

/-- Drop-while empties a fully satisfying list. -/
theorem dropWhile_all (p : Char → Bool) (xs : List Char)
    (hxs : ∀ c ∈ xs, p c = true) : xs.dropWhile p = [] := by
  induction xs with
  | nil => rfl
  | cons x xs ih =>
    have hx : p x = true := hxs x (List.mem_cons_self x xs)
    have ih2 := ih (fun c hc => hxs c (List.mem_cons_of_mem x hc))
    simp [List.dropWhile_cons, hx, ih2]

/-- A list is a prefix of itself extended by anything. -/
theorem isPrefixOf_append_self (u t : List Char) : u.isPrefixOf (u ++ t) = true := by
  induction u with
  | nil => simp [List.isPrefixOf]
  | cons x xs ih => simpa [List.isPrefixOf] using ih

/-- Unfolding equation of the scan at a cons cell. -/
theorem scanNumUnit_cons (u : List Char) (c : Char) (cs : List Char) :
    scanNumUnit u (c :: cs) =
      if c.isDigit then
        if u.isPrefixOf (((c :: cs).dropWhile Char.isDigit).dropWhile Char.isWhitespace)
        then some ((c :: cs).takeWhile Char.isDigit)
        else scanNumUnit u cs
      else scanNumUnit u cs := rfl

/-- The number-unit scan skips a non-digit character. -/
theorem scanNumUnit_cons_not_digit {c : Char} (h : c.isDigit = false)
    (u l : List Char) : scanNumUnit u (c :: l) = scanNumUnit u l := by
  simp [scanNumUnit_cons, h]

/-- The number-unit scan matches a digit run directly followed by one
space and the unit: the captured group is the digit run. -/
theorem scanNumUnit_found (u0 : Char) (us ds tail l : List Char)
    (hl : l = ds ++ ' ' :: ((u0 :: us) ++ tail))
    (_hu0d : u0.isDigit = false) (hu0w : u0.isWhitespace = false)
    (hne : ds ≠ []) (hds : ∀ c ∈ ds, c.isDigit = true) :
    scanNumUnit (u0 :: us) l = some ds := by
  subst hl
  cases ds with
  | nil => exact absurd rfl hne
  | cons d ds' =>
    have hd : d.isDigit = true := hds d (List.mem_cons_self d ds')
    have h1 : (d :: (ds' ++ ' ' :: u0 :: (us ++ tail))).dropWhile Char.isDigit =
        ' ' :: u0 :: (us ++ tail) := by
      have h := dropWhile_append_stop Char.isDigit (d :: ds') ' '
        (u0 :: (us ++ tail)) hds (by decide)
      simpa using h
    have h2 : (' ' :: u0 :: (us ++ tail)).dropWhile Char.isWhitespace =
        u0 :: (us ++ tail) := by
      simp [List.dropWhile_cons, hu0w]
    have h3 : (d :: (ds' ++ ' ' :: u0 :: (us ++ tail))).takeWhile Char.isDigit =
        d :: ds' := by
      have h := takeWhile_append_stop Char.isDigit (d :: ds') ' '
        (u0 :: (us ++ tail)) hds (by decide)
      simpa using h
    have h4 : (u0 :: us).isPrefixOf (u0 :: (us ++ tail)) = true := by
      have h := isPrefixOf_append_self (u0 :: us) tail
      simpa using h
    simp only [List.cons_append, List.append_assoc, scanNumUnit_cons, hd, if_true,
      h1, h2, h3, h4]

/-- The number-unit scan walks over a leading digit run after which
the unit cannot be matched. -/
theorem scanNumUnit_skip (u ds rest l : List Char) (hl : l = ds ++ rest)
    (hds : ∀ c ∈ ds, c.isDigit = true)
    (hrest : rest = [] ∨ ∃ r rs, rest = r :: rs ∧ r.isDigit = false)
    (hfail : u.isPrefixOf (rest.dropWhile Char.isWhitespace) = false) :
    scanNumUnit u l = scanNumUnit u rest := by
  subst hl
  induction ds with
  | nil => rw [List.nil_append]
  | cons d ds' ih =>
    have hd : d.isDigit = true := hds d (List.mem_cons_self d ds')
    have hds' : ∀ c ∈ ds', c.isDigit = true :=
      fun c hc => hds c (List.mem_cons_of_mem d hc)
    have h1 : (d :: (ds' ++ rest)).dropWhile Char.isDigit =
        rest.dropWhile Char.isDigit := by
      rcases hrest with hr | ⟨r, rs, hr, hrd⟩
      · subst hr
        simp [dropWhile_all Char.isDigit (d :: ds') hds]
      · subst hr
        have h := dropWhile_append_stop Char.isDigit (d :: ds') r rs hds hrd
        simp only [List.cons_append] at h
        rw [h]
        simp [List.dropWhile_cons, hrd]
    have h2 : rest.dropWhile Char.isDigit = rest := by
      rcases hrest with hr | ⟨r, rs, hr, hrd⟩
      · subst hr
        rfl
      · subst hr
        simp [List.dropWhile_cons, hrd]
    simp only [List.cons_append, scanNumUnit_cons, hd, if_true, h1, h2, hfail,
      Bool.false_eq_true, if_false]
    exact ih hds'

end TimeFmt

namespace TimeFmt

/-- A list containing a space is not all digits. -/
theorem all_digit_false_of_space (xs ys : List Char) :
    ((xs ++ ' ' :: ys).all Char.isDigit) = false := by
  simp [List.all_append]

/-- The hour scan finds nothing in a "X phút" string. -/
theorem scan_gio_min_only (m : Nat) :
    scanNumUnit gioChars (natToDigits m ++ ' ' :: phutChars) = none := by
  rw [scanNumUnit_skip gioChars (natToDigits m) (' ' :: phutChars) _ rfl
    (natToDigits_all_digit m) (Or.inr ⟨' ', phutChars, rfl, by decide⟩) (by decide)]
  decide

/-- The minute scan captures the digits of a "X phút" string. -/
theorem scan_phut_min_only (m : Nat) :
    scanNumUnit phutChars (natToDigits m ++ ' ' :: phutChars) = some (natToDigits m) := by
  exact scanNumUnit_found 'p' ['h', 'ú', 't'] (natToDigits m) [] _
    (by simp [phutChars]) (by decide) (by decide) (natToDigits_ne_nil m)
    (natToDigits_all_digit m)

/-- The hour scan captures the digits of a "Y giờ" string. -/
theorem scan_gio_hour_only (h : Nat) :
    scanNumUnit gioChars (natToDigits h ++ ' ' :: gioChars) = some (natToDigits h) := by
  exact scanNumUnit_found 'g' ['i', 'ờ'] (natToDigits h) [] _
    (by simp [gioChars]) (by decide) (by decide) (natToDigits_ne_nil h)
    (natToDigits_all_digit h)

/-- The minute scan finds nothing in a "Y giờ" string. -/
theorem scan_phut_hour_only (h : Nat) :
    scanNumUnit phutChars (natToDigits h ++ ' ' :: gioChars) = none := by
  rw [scanNumUnit_skip phutChars (natToDigits h) (' ' :: gioChars) _ rfl
    (natToDigits_all_digit h) (Or.inr ⟨' ', gioChars, rfl, by decide⟩) (by decide)]
  decide

/-- The hour scan captures the hour digits of a "Y giờ Z phút" string
(stated in right-associated list normal form). -/
theorem scan_gio_mixed (h r : Nat) :
    scanNumUnit gioChars
      (natToDigits h ++ ' ' :: (gioChars ++ ' ' :: (natToDigits r ++ ' ' :: phutChars))) =
      some (natToDigits h) := by
  exact scanNumUnit_found 'g' ['i', 'ờ'] (natToDigits h)
    (' ' :: (natToDigits r ++ ' ' :: phutChars)) _
    (by simp [gioChars]) (by decide) (by decide) (natToDigits_ne_nil h)
    (natToDigits_all_digit h)

/-- The minute scan captures the minute digits of a "Y giờ Z phút"
string (stated in right-associated list normal form). -/
theorem scan_phut_mixed (h r : Nat) :
    scanNumUnit phutChars
      (natToDigits h ++ ' ' :: (gioChars ++ ' ' :: (natToDigits r ++ ' ' :: phutChars))) =
      some (natToDigits r) := by
  have hfail : phutChars.isPrefixOf
      ((' ' :: (gioChars ++ ' ' :: (natToDigits r ++ ' ' :: phutChars))).dropWhile
        Char.isWhitespace) = false := by
    simp [phutChars, gioChars, List.dropWhile_cons, List.isPrefixOf]
  rw [scanNumUnit_skip phutChars (natToDigits h)
    (' ' :: (gioChars ++ ' ' :: (natToDigits r ++ ' ' :: phutChars))) _ rfl
    (natToDigits_all_digit h) (Or.inr ⟨' ', _, rfl, by decide⟩) hfail]
  rw [scanNumUnit_cons_not_digit (by decide)]
  rw [show gioChars ++ ' ' :: (natToDigits r ++ ' ' :: phutChars) =
    'g' :: 'i' :: 'ờ' :: ' ' :: (natToDigits r ++ ' ' :: phutChars) from by simp [gioChars]]
  rw [scanNumUnit_cons_not_digit (by decide), scanNumUnit_cons_not_digit (by decide),
    scanNumUnit_cons_not_digit (by decide), scanNumUnit_cons_not_digit (by decide)]
  exact scanNumUnit_found 'p' ['h', 'ú', 't'] (natToDigits r) [] _
    (by simp [phutChars]) (by decide) (by decide) (natToDigits_ne_nil r)
    (natToDigits_all_digit r)

/-- Reading back a formatted minute value recovers it exactly. -/
theorem extractMinutes_fmtMinutes (m : Nat) (hm : 1 ≤ m) :
    extractMinutes (fmtMinutes m) = m := by
  unfold fmtMinutes
  by_cases h60 : m < 60
  · rw [if_pos h60]
    simp only [extractMinutes, extractTotal, scan_gio_min_only, scan_phut_min_only,
      natToDigits_val, all_digit_false_of_space, Bool.and_false, Bool.false_and,
      Bool.false_eq_true, if_false]
    have hne : ¬ (0 + m = 0) := by omega
    rw [if_neg hne]
    omega
  · rw [if_neg h60]
    by_cases hr : m % 60 = 0
    · rw [if_pos hr]
      simp only [extractMinutes, extractTotal, scan_gio_hour_only, scan_phut_hour_only,
        natToDigits_val, all_digit_false_of_space, Bool.and_false, Bool.false_and,
        Bool.false_eq_true, if_false]
      have hne : ¬ (m / 60 * 60 + 0 = 0) := by omega
      rw [if_neg hne, Nat.add_zero]
      exact Nat.div_mul_cancel (Nat.dvd_of_mod_eq_zero hr)
    · rw [if_neg hr]
      simp only [List.append_assoc, List.cons_append, extractMinutes, extractTotal,
        scan_gio_mixed, scan_phut_mixed, natToDigits_val, all_digit_false_of_space,
        Bool.and_false, Bool.false_and, Bool.false_eq_true, if_false]
      have hne : ¬ (m / 60 * 60 + m % 60 = 0) := by omega
      rw [if_neg hne, Nat.mul_comm]
      exact Nat.div_add_mod m 60

end TimeFmt

/-- C10: formatting a "m phút" duration and parsing it back is the
identity for every positive minute count — sub-hour values render as
minutes, whole hours as "giờ", mixed values as both, all parsed back
exactly — and `extractMinutes` never returns 0: whenever nothing (or
only zero) can be parsed, it falls back to 60. -/
theorem c10_duration_roundtrip :
    (∀ m : Nat, 1 ≤ m →
      TimeFmt.extractMinutes
        (TimeFmt.formatDuration (TimeFmt.natToDigits m ++ ' ' :: TimeFmt.phutChars)) = m) ∧
    (∀ s : List Char, TimeFmt.extractMinutes s ≠ 0) ∧
    (∀ s : List Char, TimeFmt.extractTotal s = 0 → TimeFmt.extractMinutes s = 60) := by
  refine ⟨?_, ?_, ?_⟩
  · intro m hm
    have hfmt : TimeFmt.formatDuration (TimeFmt.natToDigits m ++ ' ' :: TimeFmt.phutChars) =
        TimeFmt.fmtMinutes m := by
      unfold TimeFmt.formatDuration
      rw [TimeFmt.scan_phut_min_only]
      simp only [TimeFmt.natToDigits_val]
    rw [hfmt]
    exact TimeFmt.extractMinutes_fmtMinutes m hm
  · intro s
    unfold TimeFmt.extractMinutes
    by_cases h : TimeFmt.extractTotal s = 0
    · simp [h]
    · simp [h]
  · intro s h
    unfold TimeFmt.extractMinutes
    simp [h]

/-- Witness for `c10_duration_roundtrip` at 75 minutes (renders as
"1 giờ 15 phút"). -/
theorem c10_duration_roundtrip_witness :
    1 ≤ 75 ∧
      TimeFmt.extractMinutes
        (TimeFmt.formatDuration (TimeFmt.natToDigits 75 ++ ' ' :: TimeFmt.phutChars)) = 75 :=
  ⟨by decide, c10_duration_roundtrip.1 75 (by decide)⟩

namespace TimeFmt

/-- Bounds of the two-digit-hour time parse. -/
theorem parseHM2_bounds {l : List Char} {h m : Nat} {rest : List Char}
    (hp : parseHM2 l = some (h, m, rest)) : h < 100 ∧ m < 100 := by
  unfold parseHM2 at hp
  split at hp
  · rename_i a b c d rest2
    split_ifs at hp with hd
    simp only [Bool.and_eq_true] at hd
    obtain ⟨⟨⟨ha, hb⟩, hc⟩, hd4⟩ := hd
    have he := Option.some.inj hp
    have h1 : 10 * dval a + dval b = h := congrArg Prod.fst he
    have h2 : 10 * dval c + dval d = m :=
      congrArg Prod.fst (congrArg Prod.snd he)
    have b1 := dval_lt_ten ha
    have b2 := dval_lt_ten hb
    have b3 := dval_lt_ten hc
    have b4 := dval_lt_ten hd4
    omega
  · exact absurd hp (by simp)

/-- Bounds of the one-digit-hour time parse. -/
theorem parseHM1_bounds {l : List Char} {h m : Nat} {rest : List Char}
    (hp : parseHM1 l = some (h, m, rest)) : h < 100 ∧ m < 100 := by
  unfold parseHM1 at hp
  split at hp
  · rename_i a c d rest2
    split_ifs at hp with hd
    simp only [Bool.and_eq_true] at hd
    obtain ⟨⟨ha, hc⟩, hd4⟩ := hd
    have he := Option.some.inj hp
    have h1 : dval a = h := congrArg Prod.fst he
    have h2 : 10 * dval c + dval d = m :=
      congrArg Prod.fst (congrArg Prod.snd he)
    have b1 := dval_lt_ten ha
    have b3 := dval_lt_ten hc
    have b4 := dval_lt_ten hd4
    omega
  · exact absurd hp (by simp)

/-- Bounds of the greedy time parse. -/
theorem parseHM_bounds {l : List Char} {h m : Nat} {rest : List Char}
    (hp : parseHM l = some (h, m, rest)) : h < 100 ∧ m < 100 := by
  unfold parseHM at hp
  cases h2 : parseHM2 l with
  | some q =>
    rw [h2] at hp
    obtain ⟨q1, q2, q3⟩ := q
    cases Option.some.inj hp
    exact parseHM2_bounds h2
  | none =>
    rw [h2] at hp
    exact parseHM1_bounds hp

/-- Bounds of the first time match in a string. -/
theorem timeMatch_bounds {l : List Char} {h m : Nat}
    (ht : timeMatch l = some (h, m)) : h < 100 ∧ m < 100 := by
  induction l with
  | nil => exact absurd ht (by simp [timeMatch])
  | cons c cs ih =>
    rw [timeMatch] at ht
    cases hp : parseHM (c :: cs) with
    | some q =>
      rw [hp] at ht
      obtain ⟨q1, q2, q3⟩ := q
      cases Option.some.inj ht
      exact parseHM_bounds hp
    | none =>
      rw [hp] at ht
      exact ih ht

/-- Bounds of a range attempt at one position. -/
theorem tryRangeAt_bounds {l : List Char} {h1 m1 h2 m2 : Nat}
    (ht : tryRangeAt l = some (h1, m1, h2, m2)) :
    h1 < 100 ∧ m1 < 100 ∧ h2 < 100 ∧ m2 < 100 := by
  unfold tryRangeAt at ht
  cases hp : parseHM l with
  | none =>
    simp only [hp] at ht
    exact Option.noConfusion ht
  | some q =>
    obtain ⟨qh, qm, qrest⟩ := q
    simp only [hp] at ht
    cases hdw : qrest.dropWhile Char.isWhitespace with
    | nil =>
      simp only [hdw] at ht
      exact Option.noConfusion ht
    | cons c rest2 =>
      simp only [hdw] at ht
      split_ifs at ht with hdash
      · cases hp2 : parseHM (rest2.dropWhile Char.isWhitespace) with
        | none =>
          simp only [hp2] at ht
          exact Option.noConfusion ht
        | some q2 =>
          obtain ⟨q2h, q2m, q2rest⟩ := q2
          simp only [hp2] at ht
          cases Option.some.inj ht
          obtain ⟨bh1, bm1⟩ := parseHM_bounds hp
          obtain ⟨bh2, bm2⟩ := parseHM_bounds hp2
          exact ⟨bh1, bm1, bh2, bm2⟩

/-- Bounds of the first range match in a string. -/
theorem rangeMatch_bounds {l : List Char} {h1 m1 h2 m2 : Nat}
    (ht : rangeMatch l = some (h1, m1, h2, m2)) :
    h1 < 100 ∧ m1 < 100 ∧ h2 < 100 ∧ m2 < 100 := by
  induction l with
  | nil => exact absurd ht (by simp [rangeMatch])
  | cons c cs ih =>
    rw [rangeMatch] at ht
    cases hp : tryRangeAt (c :: cs) with
    | some q =>
      rw [hp] at ht
      obtain ⟨q1, q2, q3, q4⟩ := q
      cases Option.some.inj ht
      exact tryRangeAt_bounds hp
    | none =>
      rw [hp] at ht
      exact ih ht

/-- The while-loop clock addition stays inside two-digit bounds. -/
theorem addMinutesWhile_bounds (h m a : Nat) :
    (addMinutesWhile h m a).1 < 100 ∧ (addMinutesWhile h m a).2 < 100 := by
  unfold addMinutesWhile
  dsimp only
  split_ifs with hcl
  · exact ⟨by norm_num, by norm_num⟩
  · refine ⟨by omega, ?_⟩
    have := Nat.mod_lt (m + a) (show 0 < 60 by norm_num)
    omega

/-- The single-step clock addition stays inside two-digit bounds when
the starting minute does. -/
theorem addMinutesOnce_bounds (h m a : Nat) (hm : m < 100) (ha : a ≤ 60) :
    (addMinutesOnce h m a).1 < 100 ∧ (addMinutesOnce h m a).2 < 100 := by
  unfold addMinutesOnce
  dsimp only
  split_ifs with h1 h2 h3 <;> simp <;> omega

/-- Printing a one-digit nonzero value with enough fuel. -/
theorem natToDigitsCore_single (fuel k : Nat) (h1 : 1 ≤ k) (h9 : k < 10)
    (hf : k ≤ fuel) : natToDigitsCore fuel k [] = [Char.ofNat (48 + k)] := by
  cases fuel with
  | zero => omega
  | succ f =>
    simp only [natToDigitsCore, if_neg (show ¬ k = 0 by omega)]
    rw [Nat.div_eq_of_lt h9, Nat.mod_eq_of_lt h9, natToDigitsCore_zero]

/-- Printing a single digit. -/
theorem natToDigits_single {n : Nat} (hn : n < 10) :
    natToDigits n = [Char.ofNat (48 + n)] := by
  unfold natToDigits
  by_cases h : n = 0
  · subst h
    decide
  · rw [if_neg h]
    exact natToDigitsCore_single n n (by omega) hn (le_refl n)

/-- Printing a two-digit number. -/
theorem natToDigits_double {n : Nat} (h10 : 10 ≤ n) (hn : n < 100) :
    natToDigits n = [Char.ofNat (48 + n / 10), Char.ofNat (48 + n % 10)] := by
  unfold natToDigits
  rw [if_neg (by omega)]
  cases n with
  | zero => omega
  | succ m =>
    have hdiv : (m + 1) / 10 ≤ m := by
      have := Nat.div_lt_self (show 0 < m + 1 by omega) (show 1 < 10 by norm_num)
      omega
    simp only [natToDigitsCore, if_neg (show ¬ m + 1 = 0 by omega)]
    rw [natToDigitsCore_append m ((m + 1) / 10) _ hdiv]
    rw [natToDigitsCore_single m ((m + 1) / 10) (by omega) (by omega) hdiv]
    rfl

/-- A padded two-character print of a number below one hundred:
its two characters are digits recovering the value. -/
theorem pad2_eq {n : Nat} (hn : n < 100) :
    ∃ a b, pad2 n = [a, b] ∧ a.isDigit = true ∧ b.isDigit = true ∧
      10 * dval a + dval b = n := by
  unfold pad2
  by_cases h : n < 10
  · rw [if_pos h, natToDigits_single h]
    refine ⟨'0', Char.ofNat (48 + n), rfl, by decide, digit_char_isDigit h, ?_⟩
    have h0 : dval '0' = 0 := by decide
    rw [digit_char_dval h, h0]
    omega
  · rw [if_neg h, natToDigits_double (by omega) hn]
    refine ⟨Char.ofNat (48 + n / 10), Char.ofNat (48 + n % 10), rfl,
      digit_char_isDigit (by omega), digit_char_isDigit (Nat.mod_lt n (by norm_num)), ?_⟩
    rw [digit_char_dval (by omega), digit_char_dval (Nat.mod_lt n (by norm_num))]
    omega

end TimeFmt

namespace TimeFmt

/-- Unfolding equation of the two-digit parse at the matching shape. -/
theorem parseHM2_at_shape (a b c d : Char) (rest : List Char) :
    parseHM2 (a :: b :: ':' :: c :: d :: rest) =
      if a.isDigit && b.isDigit && c.isDigit && d.isDigit then
        some (10 * dval a + dval b, 10 * dval c + dval d, rest)
      else none := by
  rfl

/-- The greedy time parse reads back a formatted clock string. -/
theorem parseHM_hmFormat {h m : Nat} (hh : h < 100) (hm : m < 100) :
    parseHM (hmFormat h m) = some (h, m, []) := by
  obtain ⟨a, b, hab, ha, hb, hvab⟩ := pad2_eq hh
  obtain ⟨c, d, hcd, hc, hd, hvcd⟩ := pad2_eq hm
  unfold hmFormat
  rw [hab, hcd]
  show parseHM (a :: b :: ':' :: c :: d :: []) = some (h, m, [])
  unfold parseHM
  rw [parseHM2_at_shape]
  simp only [ha, hb, hc, hd, Bool.and_self, if_true]
  rw [hvab, hvcd]

/-- The first time match of a formatted clock string is its value. -/
theorem timeMatch_hmFormat {h m : Nat} (hh : h < 100) (hm : m < 100) :
    timeMatch (hmFormat h m) = some (h, m) := by
  have hp := parseHM_hmFormat hh hm
  obtain ⟨a, b, hab, ha, hb, hvab⟩ := pad2_eq hh
  have hsh : hmFormat h m = a :: (b :: ':' :: pad2 m) := by
    unfold hmFormat
    rw [hab]
    rfl
  rw [hsh] at hp ⊢
  simp only [timeMatch, hp]

/-- Every successful `parseTimeRange` ends at a two-digit-bounded
formatted clock string. -/
theorem parseTimeRange_endTime_shape {t dur p : Option (List Char)}
    {s : List Char} {r : TimeRangeResult}
    (hr : parseTimeRange t dur p s = some r) :
    ∃ eh em, eh < 100 ∧ em < 100 ∧ r.endTime = hmFormat eh em := by
  unfold parseTimeRange at hr
  cases t with
  | some ts =>
    cases hrm : rangeMatch ts with
    | some q =>
      obtain ⟨h1, m1, h2, m2⟩ := q
      simp only [hrm] at hr
      cases Option.some.inj hr
      obtain ⟨-, -, b3, b4⟩ := rangeMatch_bounds hrm
      exact ⟨h2, m2, b3, b4, rfl⟩
    | none =>
      simp only [hrm] at hr
      cases htm : timeMatch ts with
      | some q =>
        obtain ⟨th, tm⟩ := q
        simp only [htm] at hr
        cases dur with
        | some ds =>
          simp only at hr
          cases Option.some.inj hr
          obtain ⟨bb1, bb2⟩ := addMinutesWhile_bounds th tm (extractMinutes ds)
          exact ⟨_, _, bb1, bb2, rfl⟩
        | none =>
          simp only at hr
          cases Option.some.inj hr
          obtain ⟨bb1, bb2⟩ := addMinutesOnce_bounds th tm 60
            (timeMatch_bounds htm).2 (by norm_num)
          exact ⟨_, _, bb1, bb2, rfl⟩
      | none =>
        simp only [htm] at hr
        cases dur with
        | some ds =>
          simp only at hr
          cases htb : timeMatch (p.getD s) with
          | some q =>
            obtain ⟨bh, bm⟩ := q
            simp only [htb] at hr
            cases Option.some.inj hr
            obtain ⟨bb1, bb2⟩ := addMinutesWhile_bounds bh bm (extractMinutes ds)
            exact ⟨_, _, bb1, bb2, rfl⟩
          | none =>
            simp only [htb] at hr
            exact Option.noConfusion hr
        | none =>
          simp only at hr
          exact Option.noConfusion hr
  | none =>
    simp only at hr
    cases dur with
    | some ds =>
      simp only at hr
      cases htb : timeMatch (p.getD s) with
      | some q =>
        obtain ⟨bh, bm⟩ := q
        simp only [htb] at hr
        cases Option.some.inj hr
        obtain ⟨bb1, bb2⟩ := addMinutesWhile_bounds bh bm (extractMinutes ds)
        exact ⟨_, _, bb1, bb2, rfl⟩
      | none =>
        simp only [htb] at hr
        exact Option.noConfusion hr
    | none =>
      simp only at hr
      exact Option.noConfusion hr

/-- When the time string itself parses (range or single), the result
of `parseTimeRange` does not depend on the seeding arguments. -/
theorem parseTimeRange_time_indep (ts : List Char) (dur p1 p2 : Option (List Char))
    (s1 s2 : List Char)
    (hmatch : (rangeMatch ts).isSome = true ∨ (timeMatch ts).isSome = true) :
    parseTimeRange (some ts) dur p1 s1 = parseTimeRange (some ts) dur p2 s2 := by
  unfold parseTimeRange
  cases hrm : rangeMatch ts with
  | some q =>
    obtain ⟨h1, m1, h2, m2⟩ := q
    simp only [hrm]
  | none =>
    cases htm : timeMatch ts with
    | some q =>
      obtain ⟨h, m⟩ := q
      simp only [hrm, htm]
      cases dur <;> rfl
    | none =>
      rcases hmatch with hm | hm
      · rw [hrm] at hm
        simp at hm
      · rw [htm] at hm
        simp at hm

/-- The duration-only branch of `parseTimeRange` seeded at a parsed
previous end time starts exactly there. -/
theorem parseTimeRange_durationOnly {ds x : List Char} {s : List Char} {h m : Nat}
    (htm : timeMatch x = some (h, m)) :
    parseTimeRange none (some ds) (some x) s =
      some ⟨x, hmFormat (addMinutesWhile h m (extractMinutes ds)).1
        (addMinutesWhile h m (extractMinutes ds)).2,
        ((extractMinutes ds : Nat) : Int)⟩ := by
  unfold parseTimeRange
  simp only [Option.getD_some, htm]

/-- The duration-only branch of `parseTimeRange` with no previous end
time starts at the day-start seed. -/
theorem parseTimeRange_durationNoPrev {ds s : List Char} {h m : Nat}
    (htm : timeMatch s = some (h, m)) :
    parseTimeRange none (some ds) none s =
      some ⟨s, hmFormat (addMinutesWhile h m (extractMinutes ds)).1
        (addMinutesWhile h m (extractMinutes ds)).2,
        ((extractMinutes ds : Nat) : Int)⟩ := by
  unfold parseTimeRange
  simp only [Option.getD_none, htm]

end TimeFmt

/-- C4 fails as stated: in a day of three activities with no explicit
times (one-hour durations, ten-minute travel times), the third
activity is displayed starting at 10:10 although the second activity's
displayed end time is 11:10 — because the renderer recomputes the
previous end from a fresh 09:00 seed instead of its displayed value —
so the claimed start (11:10 plus travel = 11:20) does not hold. -/
theorem c4_counterexample : ¬ C4Claim := by
  intro h
  obtain ⟨r, hr1, hr2⟩ := h.2.1 chainActs 2
    { duration := some ('6' :: '0' :: ' ' :: TimeFmt.phutChars),
      travelTime := some ('1' :: '0' :: ' ' :: TimeFmt.phutChars) }
    ('6' :: '0' :: ' ' :: TimeFmt.phutChars)
    ⟨['1', '0', ':', '1', '0'], ['1', '1', ':', '1', '0'], 60⟩
    (by decide) (by decide) rfl rfl (by decide)
  rw [show Saved.displayedTimeRange chainActs 2 =
      some ⟨['1', '0', ':', '1', '0'], ['1', '1', ':', '1', '0'], 60⟩ from by decide] at hr1
  cases Option.some.inj hr1
  exact absurd hr2 (by decide)

/-- C4 amended: the first activity of a day with no explicit time is
seeded at 09:00, and an explicit time string always wins (a range
match sets the exact range; a single time match sets the start);
the "previous end plus travel" rule holds for the second activity of
a day, and for later activities only when the previous activity
carries an explicit (parsed) time string — for a previous activity
whose own start was inferred, the renderer recomputes its end from a
fresh 09:00 seed rather than the displayed value, which the
counterexample shows to differ. -/
theorem c4_amended :
    (∀ (acts : List Saved.SavedActivity) (a : Saved.SavedActivity) (d : List Char),
      acts[0]? = some a → a.time = none → a.duration = some d →
      ∃ r, Saved.displayedTimeRange acts 0 = some r ∧ r.startTime = Saved.dayStart) ∧
    (∀ (acts : List Saved.SavedActivity) (i : Nat) (a prev : Saved.SavedActivity)
       (d : List Char) (rprev : TimeFmt.TimeRangeResult),
      acts[i]? = some a → acts[i - 1]? = some prev → 1 ≤ i →
      a.time = none → a.duration = some d →
      TimeFmt.parseTimeRange prev.time prev.duration none Saved.dayStart = some rprev →
      (i = 1 ∨ ∃ ts, prev.time = some ts ∧
        ((TimeFmt.rangeMatch ts).isSome = true ∨ (TimeFmt.timeMatch ts).isSome = true)) →
      Saved.displayedTimeRange acts (i - 1) = some rprev ∧
      ∃ r, Saved.displayedTimeRange acts i = some r ∧
        r.startTime = Saved.addTravelTime rprev.endTime a.travelTime) ∧
    (∀ (acts : List Saved.SavedActivity) (i : Nat) (a : Saved.SavedActivity)
       (ts : List Char) (h1 m1 h2 m2 : Nat),
      acts[i]? = some a → a.time = some ts →
      TimeFmt.rangeMatch ts = some (h1, m1, h2, m2) →
      ∃ r, Saved.displayedTimeRange acts i = some r ∧
        r.startTime = TimeFmt.hmFormat h1 m1) ∧
    (∀ (acts : List Saved.SavedActivity) (i : Nat) (a : Saved.SavedActivity)
       (ts : List Char) (th tm : Nat),
      acts[i]? = some a → a.time = some ts →
      TimeFmt.rangeMatch ts = none → TimeFmt.timeMatch ts = some (th, tm) →
      ∃ r, Saved.displayedTimeRange acts i = some r ∧
        r.startTime = TimeFmt.hmFormat th tm) := by
  have hds : TimeFmt.timeMatch Saved.dayStart = some (9, 0) := by decide
  refine ⟨?_, ?_, ?_, ?_⟩
  · intro acts a d h0 htime hdur
    unfold Saved.displayedTimeRange
    simp only [h0, eq_self_iff_true, if_true]
    rw [htime, hdur]
    rw [TimeFmt.parseTimeRange_durationNoPrev hds]
    exact ⟨_, rfl, rfl⟩
  · intro acts i a prev d rprev hia hiprev hi htime hdur hprev hcase
    constructor
    · by_cases hi1 : i - 1 = 0
      · unfold Saved.displayedTimeRange
        rw [hi1] at hiprev ⊢
        simp only [hiprev, if_pos rfl]
        exact hprev
      · rcases hcase with hc1 | ⟨ts, hts, hmatch⟩
        · exact absurd (by omega : i - 1 = 0) hi1
        · unfold Saved.displayedTimeRange
          simp only [hiprev, if_neg hi1]
          rw [hts]
          rw [TimeFmt.parseTimeRange_time_indep ts prev.duration _ none _
            Saved.dayStart hmatch]
          rw [← hts]
          exact hprev
    · have hi0 : ¬ i = 0 := by omega
      unfold Saved.displayedTimeRange
      simp only [hia, if_neg hi0, hiprev, hprev, Option.map_some']
      rw [htime, hdur]
      obtain ⟨eh, em, bh, bm, hshape⟩ := TimeFmt.parseTimeRange_endTime_shape hprev
      have hXfmt : ∃ h2 m2, h2 < 100 ∧ m2 < 100 ∧
          Saved.addTravelTime rprev.endTime a.travelTime = TimeFmt.hmFormat h2 m2 := by
        unfold Saved.addTravelTime
        cases a.travelTime with
        | none => exact ⟨eh, em, bh, bm, hshape⟩
        | some t =>
          rw [hshape, TimeFmt.timeMatch_hmFormat bh bm]
          obtain ⟨cb1, cb2⟩ := TimeFmt.addMinutesWhile_bounds eh em (TimeFmt.extractMinutes t)
          exact ⟨_, _, cb1, cb2, rfl⟩
      obtain ⟨h2, m2, hb1, hb2, hX⟩ := hXfmt
      have htmX : TimeFmt.timeMatch (Saved.addTravelTime rprev.endTime a.travelTime) =
          some (h2, m2) := by
        rw [hX]
        exact TimeFmt.timeMatch_hmFormat hb1 hb2
      rw [TimeFmt.parseTimeRange_durationOnly htmX]
      exact ⟨_, rfl, rfl⟩
  · intro acts i a ts h1 m1 h2 m2 hia htime hrm
    unfold Saved.displayedTimeRange
    simp only [hia]
    rw [htime]
    unfold TimeFmt.parseTimeRange
    simp only [hrm]
    exact ⟨_, rfl, rfl⟩
  · intro acts i a ts th tm hia htime hrm htm
    unfold Saved.displayedTimeRange
    simp only [hia]
    rw [htime]
    unfold TimeFmt.parseTimeRange
    simp only [hrm, htm]
    cases hdur : a.duration with
    | some ds =>
      simp only
      exact ⟨_, rfl, rfl⟩
    | none =>
      simp only
      exact ⟨_, rfl, rfl⟩

/-- Witness for `c4_amended`: in the three-activity chain, the second
activity starts at the first activity's displayed end (10:00) plus its
ten-minute travel time, i.e. 10:10. -/
theorem c4_amended_witness :
    Saved.displayedTimeRange chainActs 0 =
        some ⟨Saved.dayStart, ['1', '0', ':', '0', '0'], 60⟩ ∧
      ∃ r, Saved.displayedTimeRange chainActs 1 = some r ∧
        r.startTime = Saved.addTravelTime
          (⟨Saved.dayStart, ['1', '0', ':', '0', '0'], 60⟩ :
            TimeFmt.TimeRangeResult).endTime
          (some ('1' :: '0' :: ' ' :: TimeFmt.phutChars)) :=
  c4_amended.2.1 chainActs 1
    { duration := some ('6' :: '0' :: ' ' :: TimeFmt.phutChars),
      travelTime := some ('1' :: '0' :: ' ' :: TimeFmt.phutChars) }
    { duration := some ('6' :: '0' :: ' ' :: TimeFmt.phutChars) }
    ('6' :: '0' :: ' ' :: TimeFmt.phutChars)
    ⟨Saved.dayStart, ['1', '0', ':', '0', '0'], 60⟩
    (by decide) (by decide) (by decide) rfl rfl (by decide) (Or.inl rfl)
